import Mathlib

/-!
Verification of the CLI image loader (`src/mono/metadata/image.c`).

The raw buffer is modelled as a `List Nat` of bytes; multi-byte fields are
decoded little-endian exactly where the source reads them (the source only
byte-swaps on big-endian hosts, i.e. it reads little-endian data).  Struct
layouts (`MonoMSDOSHeader`, `MonoDotNetHeader`, `MonoSectionTable`,
`MonoCLIHeader`) come from `cil-coff.h`, which is not part of the sources
under review; their field offsets are modelled from the spec (PE32 /
ECMA-335 layout, §4.2-§4.3 of the spec): the MS-DOS header is 64 bytes with
`pe_offset` at 60, `MonoDotNetHeader` is 248 bytes (4-byte PE signature,
20-byte COFF header, 224-byte optional header whose data directories start
96 bytes in, the CLI-header directory being entry 14), a section-table entry
is 40 bytes, and `MonoCLIHeader` is 136 bytes with the metadata directory
entry at offset 8.  Machine integers are `Nat` with an explicit `% 2 ^ 32`
wherever the C code's 32-bit arithmetic can wrap.
-/

/-- Byte read: past-the-end reads yield 0 (the model's choice for memory the
C code would read out of bounds). -/
def read8 (d : List Nat) (p : Nat) : Nat := d.getD p 0

/-- Little-endian 16-bit read, as `read16` in the source. -/
def read16 (d : List Nat) (p : Nat) : Nat := read8 d p + 256 * read8 d (p + 1)

/-- Little-endian 32-bit read, as `read32` in the source. -/
def read32 (d : List Nat) (p : Nat) : Nat := read16 d p + 2 ^ 16 * read16 d (p + 2)

/-- Little-endian 64-bit read, as `read64` in the source. -/
def read64 (d : List Nat) (p : Nat) : Nat := read32 d p + 2 ^ 32 * read32 d (p + 4)

/-- Little-endian encoding helpers, used only to build concrete test images. -/
def le16 (n : Nat) : List Nat := [n % 256, n / 256 % 256]

def le32 (n : Nat) : List Nat := [n % 256, n / 256 % 256, n / 2 ^ 16 % 256, n / 2 ^ 24 % 256]

def le64 (n : Nat) : List Nat := le32 (n % 2 ^ 32) ++ le32 (n / 2 ^ 32)

/-- Overlay `bytes` on `base` starting at offset `ofs` (for building images). -/
def writeAt (base : List Nat) (ofs : Nat) (bytes : List Nat) : List Nat :=
  base.take ofs ++ bytes ++ base.drop (ofs + bytes.length)

def zeros (n : Nat) : List Nat := List.replicate n 0

/-- Sentinel returned by the RVA mapper (`#define INVALID_ADDRESS 0xffffffff`). -/
def INVALID_ADDRESS : Nat := 0xffffffff

/-- One entry of the section table (`MonoSectionTable`).  The 8-byte name and
the relocation/line-number fields are also copied by the source but are not
consumed by any operation verified here. -/
structure SectionTable where
  st_virtual_size : Nat
  st_virtual_address : Nat
  st_raw_data_size : Nat
  st_raw_data_ptr : Nat
  st_flags : Nat
deriving Repr, DecidableEq, Inhabited

/-- Decode one 40-byte section-table entry at `ofs` (fields little-endian). -/
def mkSection (d : List Nat) (ofs : Nat) : SectionTable :=
  { st_virtual_size := read32 d (ofs + 8)
    st_virtual_address := read32 d (ofs + 12)
    st_raw_data_size := read32 d (ofs + 16)
    st_raw_data_ptr := read32 d (ofs + 20)
    st_flags := read32 d (ofs + 36) }

/-- The loop of `load_section_tables`: reads `n` entries starting at `offset`,
failing (returning `FALSE` in the source) if any 40-byte entry would extend
past `raw_data_len`. -/
def load_section_tables (d : List Nat) (offset : Nat) : Nat → Option (List SectionTable)
  | 0 => some []
  | n + 1 =>
    if offset + 40 > d.length then none
    else
      match load_section_tables d (offset + 40) n with
      | none => none
      | some rest => some (mkSection d offset :: rest)

/-- The section-containment test exactly as the C code computes it: both
comparisons are on `guint32` values, so `va + size` wraps modulo `2 ^ 32`. -/
def sectContains (s : SectionTable) (addr : Nat) : Bool :=
  decide (s.st_virtual_address ≤ addr) &&
    decide (addr < (s.st_virtual_address + s.st_raw_data_size) % 2 ^ 32)

/-- `mono_cli_rva_image_map`: walk the section table in order and return
`addr - va + raw_data_ptr` (32-bit arithmetic) for the first section whose
range contains `addr`; `INVALID_ADDRESS` if none does. -/
def mono_cli_rva_image_map : List SectionTable → Nat → Nat
  | [], _ => INVALID_ADDRESS
  | s :: rest, addr =>
    if sectContains s addr then (addr - s.st_virtual_address + s.st_raw_data_ptr) % 2 ^ 32
    else mono_cli_rva_image_map rest addr

/-- Row count of one logical table (`MonoTableInfo.rows`; the remaining
`MonoTableInfo` fields are computed later by the metadata-decoder
collaborator and are unused here). -/
structure MonoTableInfo where
  rows : Nat
deriving Repr, DecidableEq, Inhabited

/-- `MONO_TABLE_LAST` (0x2c = 44), from `metadata-internals`.  Modelled from
the spec: position 44 is the last defined table. -/
def MONO_TABLE_LAST : Nat := 44

/-- `MONO_TABLE_NUM = MONO_TABLE_LAST + 1`: number of defined tables. -/
def MONO_TABLE_NUM : Nat := 45

/-- Number of set bits of `mask` among positions `a, a+1, …, a+n-1`. -/
def pcRange (mask a : Nat) : Nat → Nat
  | 0 => 0
  | n + 1 => (if mask.testBit a then 1 else 0) + pcRange mask (a + 1) n

/-- Number of positions in `a, …, a+n-1` that are above `MONO_TABLE_LAST`
and set in `mask` (each triggers one `g_warning` in the source). -/
def wcRange (mask a : Nat) : Nat → Nat
  | 0 => 0
  | n + 1 => (if MONO_TABLE_LAST < a ∧ mask.testBit a then 1 else 0) + wcRange mask (a + 1) n

/-- The `for (table = 0; table < 64; table++)` loop of `load_tables`.
`t` is the current table index, `valid` the number of row counts consumed so
far, `fuel` the number of remaining iterations (64 at the top call).
Returns the row counts for tables `t … 44` in order, the final `valid`
counter, and the number of warnings emitted. -/
def load_tables_loop (mask : Nat) (d : List Nat) (base : Nat) :
    Nat → Nat → Nat → List MonoTableInfo × Nat × Nat
  | _, valid, 0 => ([], valid, 0)
  | t, valid, fuel + 1 =>
    if mask.testBit t then
      let r := load_tables_loop mask d base (t + 1) (valid + 1) fuel
      (if t ≤ MONO_TABLE_LAST then ⟨read32 d (base + 24 + 4 * valid)⟩ :: r.1 else r.1,
        r.2.1, if t ≤ MONO_TABLE_LAST then r.2.2 else r.2.2 + 1)
    else
      let r := load_tables_loop mask d base (t + 1) valid fuel
      (if t ≤ MONO_TABLE_LAST then ⟨0⟩ :: r.1 else r.1, r.2.1, r.2.2)

/-- Result of decoding the tables-stream header (`load_tables`). -/
structure TablesInfo where
  idx_string_wide : Bool
  idx_guid_wide : Bool
  idx_blob_wide : Bool
  tables : List MonoTableInfo
  tables_base : Nat
  warnings : Nat
deriving Repr, DecidableEq

/-- `load_tables`: `base` is the offset of the tables stream (`#~` / `#-`)
inside the raw buffer `d`.  `heap_sizes` is the byte at offset 6; the width
flags are its bits 0, 1, 2; `valid_mask` is the 64-bit word at offset 8; one
32-bit row count at offset `24 + 4*valid` is consumed per set bit;
`tables_base` ends up `24 + 4 * popcount(valid_mask)` bytes into the
stream. -/
def load_tables (d : List Nat) (base : Nat) : TablesInfo :=
  let heap_sizes := read8 d (base + 6)
  let valid_mask := read64 d (base + 8)
  let r := load_tables_loop valid_mask d base 0 0 64
  { idx_string_wide := heap_sizes &&& 0x01 == 1
    idx_guid_wide := heap_sizes &&& 0x02 == 2
    idx_blob_wide := heap_sizes &&& 0x04 == 4
    tables := r.1
    tables_base := base + 24 + 4 * r.2.1
    warnings := r.2.2 }

/-- One heap descriptor: `(absolute offset of data in the raw buffer, size)`.
`none` models a still-NULL `data` pointer (image allocated with `g_new0`). -/
abbrev HeapDesc := Option (Nat × Nat)

/-- The five heap descriptors plus the `uncompressed_metadata` flag as left by
the stream walk of `load_metadata_ptrs`. -/
structure MetaHeaps where
  heap_tables : HeapDesc
  heap_strings : HeapDesc
  heap_us : HeapDesc
  heap_blob : HeapDesc
  heap_guid : HeapDesc
  uncompressed_metadata : Bool
deriving Repr, DecidableEq

def MetaHeaps.init : MetaHeaps :=
  { heap_tables := none, heap_strings := none, heap_us := none, heap_blob := none,
    heap_guid := none, uncompressed_metadata := false }

/-- Do the bytes at `p` match the given C string literal (including its
terminating NUL), as `strncmp (ptr, lit, lit.length+1) == 0` does? -/
def matchCStr (d : List Nat) (p : Nat) : List Nat → Bool
  | [] => read8 d p == 0
  | c :: cs => read8 d p == c && matchCStr d (p + 1) cs

/-- Do the bytes at `p` match the given bytes exactly, with no terminator
check, as `strncmp (ptr, "BSJB", 4) == 0` does? -/
def matchBytes (d : List Nat) (p : Nat) : List Nat → Bool
  | [] => true
  | c :: cs => read8 d p == c && matchBytes d (p + 1) cs

/-- Length of the NUL-terminated string at `p` (`strlen (ptr + 8)`); bytes
past the end of the buffer read as 0, so the scan stops there. -/
def cstrlenAux (d : List Nat) : Nat → Nat → Nat
  | _, 0 => 0
  | p, fuel + 1 => if read8 d p == 0 then 0 else 1 + cstrlenAux d (p + 1) fuel

def cstrlen (d : List Nat) (p : Nat) : Nat := cstrlenAux d p (d.length + 1 - p)

/-- Stream names as byte lists: "#~", "#Strings", "#US", "#Blob", "#GUID", "#-". -/
def nmTables : List Nat := [35, 126]
def nmStrings : List Nat := [35, 83, 116, 114, 105, 110, 103, 115]
def nmUS : List Nat := [35, 85, 83]
def nmBlob : List Nat := [35, 66, 108, 111, 98]
def nmGUID : List Nat := [35, 71, 85, 73, 68]
def nmUncompressed : List Nat := [35, 45]

/-- One iteration of the stream loop of `load_metadata_ptrs`: `mdOfs` is the
start of the metadata root in the raw buffer, `p` the current header
position.  Returns the updated heaps and the position of the next stream
header (the advance is padded to a 4-byte boundary relative to `mdOfs`). -/
def walkStream (d : List Nat) (mdOfs p : Nat) (h : MetaHeaps) : MetaHeaps × Nat :=
  let data := mdOfs + read32 d p
  let size := read32 d (p + 4)
  let step : MetaHeaps × Nat :=
    if matchCStr d (p + 8) nmTables then
      ({ h with heap_tables := some (data, size) }, p + 8 + 3)
    else if matchCStr d (p + 8) nmStrings then
      ({ h with heap_strings := some (data, size) }, p + 8 + 9)
    else if matchCStr d (p + 8) nmUS then
      ({ h with heap_us := some (data, size) }, p + 8 + 4)
    else if matchCStr d (p + 8) nmBlob then
      ({ h with heap_blob := some (data, size) }, p + 8 + 6)
    else if matchCStr d (p + 8) nmGUID then
      ({ h with heap_guid := some (data, size) }, p + 8 + 6)
    else if matchCStr d (p + 8) nmUncompressed then
      ({ h with heap_tables := some (data, size), uncompressed_metadata := true }, p + 8 + 3)
    else
      (h, p + 8 + cstrlen d (p + 8) + 1)
  let pad := step.2 - mdOfs
  (step.1, if pad % 4 == 0 then step.2 else step.2 + (4 - pad % 4))

def walkStreams (d : List Nat) (mdOfs : Nat) : Nat → Nat → MetaHeaps → MetaHeaps
  | _, 0, h => h
  | p, n + 1, h =>
    let r := walkStream d mdOfs p h
    walkStreams d mdOfs r.2 n r.1

/-- The metadata-root part of `load_metadata_ptrs`: map the metadata RVA,
bounds-check the region, require the `BSJB` signature, skip the version
string (padded to 4 bytes), read the stream count and walk the stream
headers.  `none` models `return FALSE` (which the caller turns into
`MONO_IMAGE_IMAGE_INVALID`).  On success it returns the metadata offset and
the heap descriptors; the `g_assert`s on the GUID heap are applied by the
caller `do_mono_image_load` below.  The size bounds check is the source's
`offset + size > image->raw_data_len` on two `guint32` values, hence the
`% 2 ^ 32`. -/
def load_metadata_ptrs (d : List Nat) (secs : List SectionTable) (mdRva mdSize : Nat) :
    Option (Nat × MetaHeaps) :=
  let offset := mono_cli_rva_image_map secs mdRva
  if offset == INVALID_ADDRESS then none
  else if (offset + mdSize) % 2 ^ 32 > d.length then none
  else if !matchBytes d offset [66, 83, 74, 66] then none
  else
    let vlen := read32 d (offset + 12)
    let afterVersion := offset + 16 + vlen
    let pad := 16 + vlen
    let p1 := if pad % 4 == 0 then afterVersion else afterVersion + (4 - pad % 4)
    let streams := read16 d (p1 + 2)
    some (offset, walkStreams d offset (p1 + 4) streams MetaHeaps.init)

/-- `load_cli_header`: RVA-map the CLI-header directory entry, bounds-check
the 136-byte `MonoCLIHeader`, and read the metadata directory entry
(rva at offset 8, size at offset 12).  The header's other fields are copied
by the source but not consumed by the operations verified here; the
"reserved zero" check has an empty body. -/
def load_cli_header (d : List Nat) (secs : List SectionTable) (cliRva : Nat) :
    Option (Nat × Nat) :=
  let offset := mono_cli_rva_image_map secs cliRva
  if offset == INVALID_ADDRESS then none
  else if offset + 136 > d.length then none
  else some (read32 d (offset + 8), read32 d (offset + 12))

/-- PE/COFF envelope validation of `do_mono_image_load`, in source order:
MS-DOS header bounds and `MZ` signature, `pe_offset`, `MonoDotNetHeader`
bounds, COFF machine `0x14c`, optional-header size
`sizeof (MonoDotNetHeader) - sizeof (MonoCOFFHeader) - 4 = 224`, PE
signature bytes `P`, `E` (only the first two bytes are checked) and PE32
magic `0x10B`, then the section table.  Returns the parsed section table
together with the CLI-header directory entry RVA. -/
def parseEnvelope (d : List Nat) : Option (List SectionTable × Nat) :=
  if 0 + 64 > d.length then none
  else if !(read8 d 0 == 77 && read8 d 1 == 90) then none
  else
    let peOfs := read32 d 60
    if peOfs + 248 > d.length then none
    else if read16 d (peOfs + 4) != 0x14c then none
    else if read16 d (peOfs + 20) != 224 then none
    else if !(read8 d peOfs == 80 && read8 d (peOfs + 1) == 69 &&
        read16 d (peOfs + 24) == 0x10B) then none
    else
      match load_section_tables d (peOfs + 248) (read16 d (peOfs + 6)) with
      | none => none
      | some secs => some (secs, read32 d (peOfs + 232))

/-- The image object, restricted to the state produced by
`do_mono_image_load` that the verified operations consume.  `cli_sections`
is the lazily-filled per-section pointer cache (`iinfo->cli_sections`),
`guid_bytes` the first 16 bytes of the `#GUID` heap (stringified by the
external `mono_guid_to_string`). -/
structure Image where
  raw_data_len : Nat
  sections : List SectionTable
  cli_sections : List (Option Nat)
  heaps : MetaHeaps
  tables : List MonoTableInfo
  tables_base : Nat
  idx_string_wide : Bool
  idx_guid_wide : Bool
  idx_blob_wide : Bool
  guid_bytes : List Nat
  module_count : Nat
deriving Repr, DecidableEq

/-- A freshly constructed image before CLI loading (all caches empty). -/
def peImage (d : List Nat) (secs : List SectionTable) : Image :=
  { raw_data_len := d.length
    sections := secs
    cli_sections := List.replicate secs.length none
    heaps := MetaHeaps.init
    tables := List.replicate MONO_TABLE_NUM ⟨0⟩
    tables_base := 0
    idx_string_wide := false
    idx_guid_wide := false
    idx_blob_wide := false
    guid_bytes := []
    module_count := 0 }

/-- Outcome of `do_mono_image_load`:
`invalid` = the function returns NULL with `*status = MONO_IMAGE_IMAGE_INVALID`;
`abort` = a failed `g_assert` (or a NULL-pointer dereference) terminates the
process; `ok img` = the function returns `img` with `*status = MONO_IMAGE_OK`. -/
inductive Outcome where
  | invalid
  | abort
  | ok (img : Image)
deriving Repr, DecidableEq

def Outcome.isOk : Outcome → Bool
  | .ok _ => true
  | _ => false

/-- `MONO_TABLE_MODULEREF = 0x1a`, from `metadata-internals` (modelled from
the spec's table numbering). -/
def MONO_TABLE_MODULEREF : Nat := 26

/-- `do_mono_image_load`: envelope, then (when `care_about_cli`) CLI header,
metadata root and streams, the two `g_assert`s on the `#GUID` heap
(`heap_guid.data` non-NULL and `heap_guid.size >= 16` — a failed `g_assert`
aborts the process), `mono_guid_to_string` on the first 16 GUID bytes, and
`load_tables` (which dereferences `heap_tables.data`, a NULL-pointer crash
when no tables stream was present — also modelled as `abort`).  Reading the
assembly/module names from the string heap and `load_modules` only
initializes `module_count` from the ModuleRef row count. -/
def do_mono_image_load (d : List Nat) (care_about_cli : Bool) : Outcome :=
  match parseEnvelope d with
  | none => .invalid
  | some (secs, cliRva) =>
    if !care_about_cli then .ok (peImage d secs)
    else
      match load_cli_header d secs cliRva with
      | none => .invalid
      | some (mdRva, mdSize) =>
        match load_metadata_ptrs d secs mdRva mdSize with
        | none => .invalid
        | some (_, hp) =>
          match hp.heap_guid with
          | none => .abort
          | some (gofs, gsz) =>
            if gsz < 16 then .abort
            else
              match hp.heap_tables with
              | none => .abort
              | some (tofs, _) =>
                let ti := load_tables d tofs
                .ok { raw_data_len := d.length
                      sections := secs
                      cli_sections := List.replicate secs.length none
                      heaps := hp
                      tables := ti.tables
                      tables_base := ti.tables_base
                      idx_string_wide := ti.idx_string_wide
                      idx_guid_wide := ti.idx_guid_wide
                      idx_blob_wide := ti.idx_blob_wide
                      guid_bytes := (List.range 16).map (fun k => read8 d (gofs + k))
                      module_count := (ti.tables.getD MONO_TABLE_MODULEREF ⟨0⟩).rows }

/-- `mono_image_ensure_section_idx`: reject an out-of-range index
(`g_return_val_if_fail`), succeed at once if the slot is already mapped,
otherwise check `st_raw_data_ptr + st_raw_data_size > raw_data_len` (a
`guint32` sum, hence `% 2 ^ 32`) and map the slot.  Returns the success flag
and the updated image. -/
def mono_image_ensure_section_idx (img : Image) (sidx : Nat) : Bool × Image :=
  if !(sidx < img.sections.length) then (false, img)
  else if (img.cli_sections.getD sidx none).isSome then (true, img)
  else
    let sect := img.sections.getD sidx default
    if (sect.st_raw_data_ptr + sect.st_raw_data_size) % 2 ^ 32 > img.raw_data_len then
      (false, img)
    else
      (true, { img with cli_sections := img.cli_sections.set sidx (some sect.st_raw_data_ptr) })

/-- `mono_image_get_table_info`: NULL for a table id outside
`[0, MONO_TABLE_NUM)`, otherwise the descriptor `&image->tables [table_id]`. -/
def mono_image_get_table_info (img : Image) (table_id : Int) : Option MonoTableInfo :=
  if table_id < 0 ∨ (MONO_TABLE_NUM : Int) ≤ table_id then none
  else some (img.tables.getD table_id.toNat ⟨0⟩)

/-- `mono_image_get_table_rows`: 0 for a table id outside
`[0, MONO_TABLE_NUM)`, otherwise `image->tables [table_id].rows`. -/
def mono_image_get_table_rows (img : Image) (table_id : Int) : Nat :=
  if table_id < 0 ∨ (MONO_TABLE_NUM : Int) ≤ table_id then 0
  else (img.tables.getD table_id.toNat ⟨0⟩).rows

/-- Inputs of `mono_image_get_public_key` that come from the metadata-decoder
collaborator.  Modelled from the spec: row/column decoding and blob-size
decoding are supplied by the external decoder (`mono_metadata_decode_row_col`,
`mono_metadata_blob_heap`, `mono_metadata_decode_blob_size` live outside
`src/`).  `assembly_rows` is `image->tables [MONO_TABLE_ASSEMBLY].rows`,
`public_key_col` the `MONO_ASSEMBLY_PUBLIC_KEY` column of row 0, `blob_base`
the address of `image->heap_blob.data`, and `decode_blob_size p` returns the
decoded blob length together with the number of length-header bytes the
decoder steps over. -/
structure PublicKeyView where
  assembly_rows : Nat
  public_key_col : Nat
  blob_base : Nat
  decode_blob_size : Nat → Nat × Nat

/-- `mono_image_get_public_key`: NULL unless the assembly table has exactly
one row with a nonzero public-key index; otherwise the blob pointer advanced
past its length header, with the decoded length stored through `size`. -/
def mono_image_get_public_key (v : PublicKeyView) : Option (Nat × Nat) :=
  if v.assembly_rows ≠ 1 then none
  else if v.public_key_col = 0 then none
  else
    let p := v.blob_base + v.public_key_col
    let r := v.decode_blob_size p
    some (p + r.2, r.1)

/-- `FILE_CONTAINS_NO_METADATA`, from `tabledefs.h` (modelled from the spec:
the `File`-table flag that marks a resource-only file). -/
def FILE_CONTAINS_NO_METADATA : Nat := 1

/-- One decoded row of the `File` table (decoding supplied by the
metadata-decoder collaborator). -/
structure FileRow where
  flags : Nat
  name : String
deriving Repr, DecidableEq

/-- The environment of `mono_image_load_module`: the decoded `File` table,
the decoded `ModuleRef` names, `g_path_get_dirname (image->name)`, and the
result of `mono_image_open_full` on a candidate path (the open's registry
effects are outside this per-image state). -/
structure ModuleEnv where
  file_rows : List FileRow
  moduleref_names : List String
  base_dir : String
  open_result : String → Option Nat

/-- The module slots of one image: `image->modules` and
`image->modules_loaded`, both sized to the ModuleRef row count. -/
structure ModuleState where
  modules : List (Option Nat)
  modules_loaded : List Bool
deriving Repr, DecidableEq

/-- `mono_image_load_module` for the one-based index `idx`: return the cached
slot when it is marked loaded; otherwise cross-check the referenced name
against the `File` table (an empty `File` table disables the check, rows
flagged `FILE_CONTAINS_NO_METADATA` do not count), open
`base_dir/name` when the name is valid, store the result (even NULL) in the
slot, and mark the slot loaded either way.  The third component counts the
calls made to `mono_image_open_full` (0 or 1). -/
def mono_image_load_module (env : ModuleEnv) (st : ModuleState) (idx : Nat) :
    Option Nat × ModuleState × Nat :=
  if st.modules_loaded.getD (idx - 1) false then (st.modules.getD (idx - 1) none, st, 0)
  else
    let name := env.moduleref_names.getD (idx - 1) ""
    let validNames :=
      (env.file_rows.filter (fun r => r.flags ≠ FILE_CONTAINS_NO_METADATA)).map (·.name)
    let valid := env.file_rows.isEmpty || validNames.contains name
    let newModules :=
      if valid then st.modules.set (idx - 1) (env.open_result (env.base_dir ++ "/" ++ name))
      else st.modules
    let st2 : ModuleState :=
      { modules := newModules, modules_loaded := st.modules_loaded.set (idx - 1) true }
    (st2.modules.getD (idx - 1) none, st2, if valid then 1 else 0)

/-!  The image registry (`loaded_images_hash` and friends).

The registry is modelled as a state machine.  Images are identified by a
`Nat` (their address); each live image carries the fields the registry
consults.  The four `GHashTable`s are association lists with
insert-replaces-key semantics (`g_hash_table_insert` on an existing key
replaces the value).  `mono_path_canonicalize` / `mono_path_resolve_symlinks`
live outside `src/`; modelled from the spec (§4.7 step 1: "Canonicalize the
input path (symlink resolution + path normalization)") as a single abstract
function `canon` used both to look up and to name a new image.  Parsing is
abstracted by an `Option (guid × assembly_name)` parameter: `none` is a
failed `do_mono_image_load`, `some` a success with the fields the registry
uses.  Recursive closing of module sub-images is represented by issuing
further `close` operations. -/

structure RegImage where
  name : String
  guid : String
  assembly_name : Option String
  ref_only : Bool
deriving Repr, DecidableEq

structure ImgEntry where
  info : RegImage
  rc : Nat
deriving Repr, DecidableEq

structure Registry where
  path_n : List (String × Nat)
  path_r : List (String × Nat)
  guid_n : List (String × Nat)
  guid_r : List (String × Nat)
  imgs : List (Nat × ImgEntry)
deriving Repr, DecidableEq

def regInit : Registry := ⟨[], [], [], [], []⟩

/-- `g_hash_table_lookup`. -/
def alLookup {κ α : Type} [DecidableEq κ] (k : κ) : List (κ × α) → Option α
  | [] => none
  | q :: m => if q.1 = k then some q.2 else alLookup k m

/-- `g_hash_table_remove` (a hash table holds at most one entry per key;
the association list drops every pair with the key). -/
def alRemove {κ α : Type} [DecidableEq κ] (k : κ) : List (κ × α) → List (κ × α)
  | [] => []
  | q :: m => if q.1 = k then alRemove k m else q :: alRemove k m

/-- `g_hash_table_insert` (replaces the entry for an existing key). -/
def alInsert {κ α : Type} [DecidableEq κ] (k : κ) (v : α) (m : List (κ × α)) :
    List (κ × α) :=
  (k, v) :: alRemove k m

def pathMap (st : Registry) (ro : Bool) : List (String × Nat) :=
  if ro then st.path_r else st.path_n

def setPathMap (st : Registry) (ro : Bool) (m : List (String × Nat)) : Registry :=
  if ro then { st with path_r := m } else { st with path_n := m }

def guidMap (st : Registry) (ro : Bool) : List (String × Nat) :=
  if ro then st.guid_r else st.guid_n

def setGuidMap (st : Registry) (ro : Bool) (m : List (String × Nat)) : Registry :=
  if ro then { st with guid_r := m } else { st with guid_n := m }

def getImg (st : Registry) (i : Nat) : Option ImgEntry := alLookup i st.imgs

def setImg (st : Registry) (i : Nat) (e : ImgEntry) : Registry :=
  { st with imgs := alInsert i e st.imgs }

def delImg (st : Registry) (i : Nat) : Registry := { st with imgs := alRemove i st.imgs }

def rcOf (st : Registry) (i : Nat) : Nat := ((getImg st i).map (·.rc)).getD 0

/-- `mono_image_addref`. -/
def mono_image_addref (st : Registry) (i : Nat) : Registry :=
  match getImg st i with
  | none => st
  | some e => setImg st i { e with rc := e.rc + 1 }

/-- `register_guid` — the per-entry callback of `build_guid_table`.  Two
slips of the source are preserved: the duplicate check passes the image
pointer (not `image->guid`) as the key of the string-keyed GUID hash, so it
never finds anything (the bytes of an image struct are not equal, as a C
string, to a stored GUID string), and the insert always targets
`loaded_images_guid_hash`, the non-ref-only map, whatever partition is being
rebuilt. -/
def register_guid (st : Registry) (i : Nat) : Registry :=
  match getImg st i with
  | none => st
  | some e => { st with guid_n := alInsert e.info.guid i st.guid_n }

/-- `build_guid_table`: iterate the selected partition's path map. -/
def build_guid_table (st : Registry) (ro : Bool) : Registry :=
  (pathMap st ro).foldl (fun s q => register_guid s q.2) st

/-- First de-registration step of `mono_image_close`: if the partition's
path map still points to this image under its name, remove it by name and
remove its GUID entry from the same partition's GUID map. -/
def close_dereg1 (st : Registry) (img : RegImage) (i : Nat) : Registry :=
  if alLookup img.name (pathMap st img.ref_only) = some i then
    setGuidMap (setPathMap st img.ref_only (alRemove img.name (pathMap st img.ref_only)))
      img.ref_only (alRemove img.guid (guidMap st img.ref_only))
  else st

/-- Second de-registration step of `mono_image_close`: drop the
assembly-name alias when it still points to this image. -/
def close_dereg2 (st : Registry) (img : RegImage) (i : Nat) : Registry :=
  match img.assembly_name with
  | some an =>
    if alLookup an (pathMap st img.ref_only) = some i then
      setPathMap st img.ref_only (alRemove an (pathMap st img.ref_only))
    else st
  | none => st

/-- `mono_image_close`: decrement; at zero, de-register (remove the path
entry and the GUID entry if the path map still points here, remove the
assembly-name alias if it points here), rebuild the GUID table, and free the
image. -/
def mono_image_close (st : Registry) (i : Nat) : Registry :=
  match getImg st i with
  | none => st
  | some e =>
    if 1 < e.rc then setImg st i { e with rc := e.rc - 1 }
    else
      delImg (build_guid_table (close_dereg2 (close_dereg1 st e.info i) e.info i)
        e.info.ref_only) i

/-- `register_image`: under the lock, if another image was registered under
the same name in the meantime, add a reference to it and close the fresh
copy; otherwise insert the fresh image by name, by assembly name (when
distinct and absent) and by GUID. -/
def register_image (st : Registry) (i : Nat) : Nat × Registry :=
  match getImg st i with
  | none => (i, st)
  | some e =>
    let pm := pathMap st e.info.ref_only
    match alLookup e.info.name pm with
    | some i2 => (i2, mono_image_close (mono_image_addref st i2) i)
    | none =>
      let st1 := setPathMap st e.info.ref_only (alInsert e.info.name i pm)
      let st2 :=
        match e.info.assembly_name with
        | some an =>
          if alLookup an (pathMap st1 e.info.ref_only) = none then
            setPathMap st1 e.info.ref_only (alInsert an i (pathMap st1 e.info.ref_only))
          else st1
        | none => st1
      (i, setGuidMap st2 e.info.ref_only (alInsert e.info.guid i (guidMap st2 e.info.ref_only)))

/-- `mono_image_open_full`: look up the canonicalized path; on a hit, addref
and return.  On a miss, `do_mono_image_open` builds a fresh image named
after the resolved path with ref count 1; a failed load closes it
(`mono_image_close (image)` inside `do_mono_image_load`) and returns NULL; a
successful load is published through `register_image`.  `fresh` is the
address of the image `do_mono_image_open` would allocate; `parse` the
abstracted load result. -/
def mono_image_open_full (canon : String → String) (st : Registry) (fname : String)
    (ro : Bool) (parse : Option (String × Option String)) (fresh : Nat) :
    Option Nat × Registry :=
  let key := canon fname
  match alLookup key (pathMap st ro) with
  | some i => (some i, mono_image_addref st i)
  | none =>
    match parse with
    | none =>
      let st1 := setImg st fresh { info := ⟨key, "", none, ro⟩, rc := 1 }
      (none, mono_image_close st1 fresh)
    | some (g, an) =>
      let st1 := setImg st fresh { info := ⟨key, g, an, ro⟩, rc := 1 }
      let r := register_image st1 fresh
      (some r.1, r.2)

/-- `mono_image_loaded_full`: a plain lookup of `name` (not canonicalized)
in the selected partition's path map. -/
def mono_image_loaded_full (st : Registry) (name : String) (ro : Bool) : Option Nat :=
  alLookup name (pathMap st ro)

/-- Registry operations that can run between an open and the close that
drops the image's last reference. -/
inductive RegOp where
  | opn (fname : String) (ro : Bool) (parse : Option (String × Option String)) (fresh : Nat)
  | close (i : Nat)
  | addref (i : Nat)

def applyOp (canon : String → String) (st : Registry) : RegOp → Registry
  | .opn f ro p fr => (mono_image_open_full canon st f ro p fr).2
  | .close i => mono_image_close st i
  | .addref i => mono_image_addref st i

def applyOps (canon : String → String) (st : Registry) (ops : List RegOp) : Registry :=
  ops.foldl (applyOp canon) st

/-- Validity of one operation relative to a protected image `i`: an open must
allocate at a genuinely fresh address, and a close of `i` itself must not
drop its last reference. -/
def OpOk (st : Registry) (i : Nat) : RegOp → Prop
  | .opn _ _ _ fr => getImg st fr = none
  | .close j => j ≠ i ∨ 1 < rcOf st j
  | .addref _ => True

def OpsOk (canon : String → String) (st : Registry) (i : Nat) : List RegOp → Prop
  | [] => True
  | op :: rest => OpOk st i op ∧ OpsOk canon (applyOp canon st op) i rest

/-!  Concrete images used by counterexamples and witnesses. -/

/-- Overlay a list of `(offset, bytes)` patches on a base buffer. -/
def overlay (base : List Nat) (ws : List (Nat × List Nat)) : List Nat :=
  ws.foldl (fun b w => writeAt b w.1 w.2) base

/-- A 352-byte PE32 file that passes every envelope check yet declares one
section whose raw data range (`raw_data_ptr = 0x1000`, `raw_data_size =
0x200`) extends far beyond the file's 352 bytes. -/
def exBadSection : List Nat :=
  overlay (zeros 352)
    [(0, [77, 90]), (60, le32 64), (64, [80, 69, 0, 0]), (68, le16 0x14c),
     (70, le16 1), (84, le16 224), (88, le16 0x10B),
     (320, le32 0x200), (324, le32 0x1000), (328, le32 0x200), (332, le32 0x1000)]

/-- A 312-byte PE32 file whose PE signature bytes are `P`, `E`, `A`, `B`
(bytes 2 and 3 nonzero) and which passes every check the source makes. -/
def exBadPesig : List Nat :=
  overlay (zeros 312)
    [(0, [77, 90]), (60, le32 64), (64, [80, 69, 65, 66]), (68, le16 0x14c),
     (84, le16 224), (88, le16 0x10B)]

/-- An 864-byte PE32 file with a well-formed CLI header and metadata root
whose stream table declares a single `#~` stream and no `#GUID` stream:
one section at RVA `0x1000` backed by file offset 352, the CLI header at
RVA `0x1000` (file 352) pointing at metadata at RVA `0x1100` (file 608). -/
def exNoGuid : List Nat :=
  overlay (zeros 864)
    [(0, [77, 90]), (60, le32 64), (64, [80, 69, 0, 0]), (68, le16 0x14c),
     (70, le16 1), (84, le16 224), (88, le16 0x10B),
     (296, le32 0x1000), (300, le32 72),
     (320, le32 0x200), (324, le32 0x1000), (328, le32 0x200), (332, le32 352),
     (360, le32 0x1100), (364, le32 100),
     (608, [66, 83, 74, 66]), (626, le16 1),
     (628, le32 60), (632, le32 24), (636, [35, 126, 0])]

/-- A 32-byte tables-stream header: `heap_sizes = 7` at offset 6,
`valid_mask = 0b101` (tables 0 and 2 present), row counts 7 and 9. -/
def exTablesStream : List Nat :=
  overlay (zeros 32) [(6, [7]), (8, le64 5), (24, le32 7), (28, le32 9)]

/-!  Theorems. -/

theorem getD_set_self {α : Type} (l : List α) (i : Nat) (a dflt : α) (h : i < l.length) :
    (l.set i a).getD i dflt = a := by
  simp [List.getD, List.getElem?_set_eq_of_lt a h]

/-- Claim C9 (confirmed): for every image and every `table_id` outside
`[0, MONO_TABLE_NUM)` (negative included), `mono_image_get_table_info`
returns NULL and `mono_image_get_table_rows` returns 0, and the model is a
total function (no abort); for `table_id` in range they return the stored
descriptor — an index strictly below the 45-entry table array, so no
out-of-bounds read — and its row count. -/
theorem C9_table_accessors (img : Image) (table_id : Int)
    (hlen : img.tables.length = MONO_TABLE_NUM) :
    ((table_id < 0 ∨ (MONO_TABLE_NUM : Int) ≤ table_id) →
      mono_image_get_table_info img table_id = none ∧
      mono_image_get_table_rows img table_id = 0) ∧
    (0 ≤ table_id → table_id < (MONO_TABLE_NUM : Int) →
      table_id.toNat < img.tables.length ∧
      mono_image_get_table_info img table_id = some (img.tables.getD table_id.toNat ⟨0⟩) ∧
      mono_image_get_table_rows img table_id = (img.tables.getD table_id.toNat ⟨0⟩).rows) := by
  constructor
  · intro h
    simp [mono_image_get_table_info, mono_image_get_table_rows, h]
  · intro h1 h2
    have hno : ¬(table_id < 0 ∨ (MONO_TABLE_NUM : Int) ≤ table_id) := by omega
    refine ⟨?_, ?_, ?_⟩
    · have : (table_id.toNat : Int) = table_id := Int.toNat_of_nonneg h1
      omega
    · simp [mono_image_get_table_info, hno]
    · simp [mono_image_get_table_rows, hno]

theorem C9_table_accessors_witness :
    mono_image_get_table_info (peImage [] []) (-7) = none ∧
    mono_image_get_table_rows (peImage [] []) 45 = 0 ∧
    mono_image_get_table_info (peImage [] []) 3 = some ⟨0⟩ := by
  have hlen : (peImage [] []).tables.length = MONO_TABLE_NUM := by decide
  refine ⟨((C9_table_accessors (peImage [] []) (-7) hlen).1 (by decide)).1,
    ((C9_table_accessors (peImage [] []) 45 hlen).1 (by decide)).2, ?_⟩
  have h := ((C9_table_accessors (peImage [] []) 3 hlen).2 (by decide) (by decide)).2.1
  rw [h]; decide

/-- Claim C10 (confirmed): `mono_image_get_public_key` returns NULL exactly
when the assembly table's row count differs from 1 or the public-key column
of row 0 is 0; otherwise it returns the blob-heap pointer advanced past the
blob's length header (in particular at or above the start of the blob heap)
and stores the decoded blob length through `size`. -/
theorem C10_public_key (v : PublicKeyView) :
    (mono_image_get_public_key v = none ↔ (v.assembly_rows ≠ 1 ∨ v.public_key_col = 0)) ∧
    (∀ p sz, mono_image_get_public_key v = some (p, sz) →
      v.assembly_rows = 1 ∧ v.public_key_col ≠ 0 ∧
      p = v.blob_base + v.public_key_col +
        (v.decode_blob_size (v.blob_base + v.public_key_col)).2 ∧
      sz = (v.decode_blob_size (v.blob_base + v.public_key_col)).1 ∧
      v.blob_base ≤ p) := by
  by_cases h1 : v.assembly_rows = 1
  · by_cases h2 : v.public_key_col = 0
    · constructor
      · simp [mono_image_get_public_key, h1, h2]
      · intro p sz hp
        simp [mono_image_get_public_key, h1, h2] at hp
    · constructor
      · simp [mono_image_get_public_key, h1, h2]
      · intro p sz hp
        simp [mono_image_get_public_key, h1, h2] at hp
        refine ⟨h1, h2, hp.1.symm, hp.2.symm, ?_⟩
        have := hp.1
        omega
  · constructor
    · simp [mono_image_get_public_key, h1]
    · intro p sz hp
      simp [mono_image_get_public_key, h1] at hp

theorem C10_public_key_witness :
    mono_image_get_public_key ⟨1, 5, 100, fun _ => (3, 2)⟩ = some (107, 3) ∧
    (mono_image_get_public_key ⟨0, 5, 100, fun _ => (3, 2)⟩ = none ↔ (0 ≠ 1 ∨ 5 = 0)) := by
  constructor
  · rfl
  · exact (C10_public_key ⟨0, 5, 100, fun _ => (3, 2)⟩).1

/-- Claim C8 (confirmed): `mono_image_load_module` is idempotent for every
one-based index within the module count: the first call leaves the slot
marked loaded whether or not the open succeeded, and a repeated call returns
the stored slot value, performs no open (the call counter is 0), and does
not mutate the image. -/
theorem load_module_cached (env : ModuleEnv) (st : ModuleState) (idx : Nat)
    (h : st.modules_loaded.getD (idx - 1) false = true) :
    mono_image_load_module env st idx = (st.modules.getD (idx - 1) none, st, 0) := by
  unfold mono_image_load_module
  rw [if_pos h]

theorem load_module_uncached (env : ModuleEnv) (st : ModuleState) (idx : Nat)
    (h : ¬ st.modules_loaded.getD (idx - 1) false = true) :
    (mono_image_load_module env st idx).2.1.modules_loaded =
      st.modules_loaded.set (idx - 1) true ∧
    (mono_image_load_module env st idx).1 =
      (mono_image_load_module env st idx).2.1.modules.getD (idx - 1) none := by
  unfold mono_image_load_module
  rw [if_neg h]
  exact ⟨rfl, rfl⟩

theorem C8_load_module_idempotent (env : ModuleEnv) (st : ModuleState) (idx : Nat)
    (h1 : 1 ≤ idx) (h2 : idx - 1 < st.modules.length)
    (h3 : idx - 1 < st.modules_loaded.length) :
    (mono_image_load_module env st idx).2.1.modules_loaded.getD (idx - 1) false = true ∧
    mono_image_load_module env ((mono_image_load_module env st idx).2.1) idx =
      ((mono_image_load_module env st idx).2.1.modules.getD (idx - 1) none,
        (mono_image_load_module env st idx).2.1, 0) ∧
    (mono_image_load_module env ((mono_image_load_module env st idx).2.1) idx).1 =
      (mono_image_load_module env st idx).1 := by
  by_cases hl : st.modules_loaded.getD (idx - 1) false = true
  · rw [load_module_cached env st idx hl]
    exact ⟨hl, load_module_cached env st idx hl, by rw [load_module_cached env st idx hl]⟩
  · have hm := load_module_uncached env st idx hl
    have hload : (mono_image_load_module env st idx).2.1.modules_loaded.getD (idx - 1) false
        = true := by
      rw [hm.1]
      exact getD_set_self _ _ _ _ h3
    exact ⟨hload, load_module_cached env _ idx hload,
      by rw [load_module_cached env _ idx hload, hm.2]⟩

theorem C8_load_module_idempotent_witness :
    1 ≤ 1 ∧
    (mono_image_load_module ⟨[], ["m"], "/x", fun _ => some 9⟩ ⟨[none], [false]⟩ 1).2.1.modules_loaded.getD 0 false = true ∧
    mono_image_load_module ⟨[], ["m"], "/x", fun _ => some 9⟩
        ((mono_image_load_module ⟨[], ["m"], "/x", fun _ => some 9⟩ ⟨[none], [false]⟩ 1).2.1) 1 =
      ((mono_image_load_module ⟨[], ["m"], "/x", fun _ => some 9⟩ ⟨[none], [false]⟩ 1).2.1.modules.getD 0 none,
        (mono_image_load_module ⟨[], ["m"], "/x", fun _ => some 9⟩ ⟨[none], [false]⟩ 1).2.1, 0) := by
  have h := C8_load_module_idempotent ⟨[], ["m"], "/x", fun _ => some 9⟩ ⟨[none], [false]⟩ 1
    (by decide) (by decide) (by decide)
  exact ⟨by decide, h.1, h.2.1⟩

theorem and_pow2_beq (n i : Nat) : (n &&& 2 ^ i == 2 ^ i) = n.testBit i := by
  rw [Nat.and_two_pow]
  have h2 : (2 : Nat) ^ i ≠ 0 := by positivity
  cases h : n.testBit i
  · simp only [Bool.toNat_false, Nat.zero_mul, beq_eq_false_iff_ne]
    omega
  · simp

theorem pcRange_succ (mask a n : Nat) :
    pcRange mask a (n + 1) = (if mask.testBit a then 1 else 0) + pcRange mask (a + 1) n := rfl

theorem wcRange_succ (mask a n : Nat) :
    wcRange mask a (n + 1) =
      (if MONO_TABLE_LAST < a ∧ mask.testBit a then 1 else 0) + wcRange mask (a + 1) n := rfl

theorem ltl_valid (mask : Nat) (d : List Nat) (base : Nat) :
    ∀ fuel t valid,
      (load_tables_loop mask d base t valid fuel).2.1 = valid + pcRange mask t fuel := by
  intro fuel
  induction fuel with
  | zero => intro t valid; simp [load_tables_loop, pcRange]
  | succ n ih =>
    intro t valid
    by_cases hb : mask.testBit t
    · simp only [load_tables_loop, hb, if_true, pcRange, ih]
      omega
    · simp only [load_tables_loop, hb, if_false, pcRange, ih, Bool.false_eq_true]
      omega

theorem ltl_warn (mask : Nat) (d : List Nat) (base : Nat) :
    ∀ fuel t valid,
      (load_tables_loop mask d base t valid fuel).2.2 = wcRange mask t fuel := by
  intro fuel
  induction fuel with
  | zero => intro t valid; simp [load_tables_loop, wcRange]
  | succ n ih =>
    intro t valid
    by_cases hb : mask.testBit t
    · by_cases ht : t ≤ MONO_TABLE_LAST
      · rw [wcRange_succ, if_neg (fun hc => absurd hc.1 (by omega))]
        simp only [load_tables_loop, hb, if_true, ht, ih]
        omega
      · rw [wcRange_succ, if_pos ⟨by omega, hb⟩]
        simp only [load_tables_loop, hb, if_true, ht, if_false, ih]
        omega
    · rw [wcRange_succ, if_neg (fun hc => hb hc.2)]
      simp only [load_tables_loop, hb, if_false, Bool.false_eq_true, ih]
      omega

theorem ltl_rows (mask : Nat) (d : List Nat) (base : Nat) :
    ∀ fuel t valid k, k < fuel → t + k ≤ MONO_TABLE_LAST →
      (load_tables_loop mask d base t valid fuel).1.getD k ⟨0⟩ =
        if mask.testBit (t + k) then
          ⟨read32 d (base + 24 + 4 * (valid + pcRange mask t k))⟩
        else (⟨0⟩ : MonoTableInfo) := by
  intro fuel
  induction fuel with
  | zero => intro t valid k hk; omega
  | succ n ih =>
    intro t valid k hk hle
    have ht : t ≤ MONO_TABLE_LAST := by omega
    match k with
    | 0 =>
      by_cases hb : mask.testBit t
      · simp only [load_tables_loop, hb, if_true, ht, Nat.add_zero, pcRange]
        rw [List.getD_cons_zero]
      · simp only [load_tables_loop, hb, if_false, Bool.false_eq_true, ht, if_true,
          Nat.add_zero]
        rw [List.getD_cons_zero]
    | k1 + 1 =>
      have hle2 : (t + 1) + k1 ≤ MONO_TABLE_LAST := by omega
      have hk2 : k1 < n := by omega
      by_cases hb : mask.testBit t
      · simp only [load_tables_loop, hb, if_true, ht]
        rw [List.getD_cons_succ, ih (t + 1) (valid + 1) k1 hk2 hle2]
        have harith : valid + 1 + pcRange mask (t + 1) k1 =
            valid + pcRange mask t (k1 + 1) := by
          simp [pcRange, hb]
          omega
        rw [harith]
        have : t + (k1 + 1) = t + 1 + k1 := by omega
        rw [this]
      · simp only [load_tables_loop, hb, if_false, Bool.false_eq_true, ht, if_true]
        rw [List.getD_cons_succ, ih (t + 1) valid k1 hk2 hle2]
        have harith : valid + pcRange mask (t + 1) k1 = valid + pcRange mask t (k1 + 1) := by
          simp [pcRange, hb]
        rw [harith]
        have : t + (k1 + 1) = t + 1 + k1 := by omega
        rw [this]

theorem ltl_length (mask : Nat) (d : List Nat) (base : Nat) :
    ∀ fuel t valid,
      (load_tables_loop mask d base t valid fuel).1.length =
        min fuel (MONO_TABLE_NUM - t) := by
  intro fuel
  induction fuel with
  | zero => intro t valid; simp [load_tables_loop]
  | succ n ih =>
    intro t valid
    by_cases ht : t ≤ MONO_TABLE_LAST
    · by_cases hb : mask.testBit t
      · simp only [load_tables_loop, hb, if_true, ht, List.length_cons, ih]
        simp only [MONO_TABLE_NUM, MONO_TABLE_LAST] at *
        omega
      · simp only [load_tables_loop, hb, if_false, Bool.false_eq_true, ht, if_true,
          List.length_cons, ih]
        simp only [MONO_TABLE_NUM, MONO_TABLE_LAST] at *
        omega
    · by_cases hb : mask.testBit t
      · simp only [load_tables_loop, hb, if_true, ht, if_false, ih]
        simp only [MONO_TABLE_NUM, MONO_TABLE_LAST] at *
        omega
      · simp only [load_tables_loop, hb, if_false, Bool.false_eq_true, ht, ih]
        simp only [MONO_TABLE_NUM, MONO_TABLE_LAST] at *
        omega

/-- Claim C7 (confirmed): when the tables stream at `base` is decoded,
`string_wide`, `guid_wide`, `blob_wide` are bits 0, 1, 2 of the `heap_sizes`
byte (offset 6); for each bit of `valid_mask` (the 64-bit word at offset 8)
set at position `t ≤ 44` the table's row count is the 32-bit value at
`24 + 4 * (number of set bits below t)` — i.e. one row count is consumed per
set bit, in order — while set bits above 44 consume their row count but only
count a warning; absent tables get row count 0; and `tables_base` is
`base + 24 + 4 * popcount(valid_mask)`, the byte immediately after all
consumed row counts. -/
theorem C7_load_tables (d : List Nat) (base : Nat) :
    ((load_tables d base).idx_string_wide = (read8 d (base + 6)).testBit 0 ∧
      (load_tables d base).idx_guid_wide = (read8 d (base + 6)).testBit 1 ∧
      (load_tables d base).idx_blob_wide = (read8 d (base + 6)).testBit 2) ∧
    (load_tables d base).tables.length = MONO_TABLE_NUM ∧
    (∀ t, t ≤ MONO_TABLE_LAST → (read64 d (base + 8)).testBit t →
      (load_tables d base).tables.getD t ⟨0⟩ =
        ⟨read32 d (base + 24 + 4 * pcRange (read64 d (base + 8)) 0 t)⟩) ∧
    (∀ t, t ≤ MONO_TABLE_LAST → ¬ (read64 d (base + 8)).testBit t →
      (load_tables d base).tables.getD t ⟨0⟩ = ⟨0⟩) ∧
    (load_tables d base).tables_base = base + 24 + 4 * pcRange (read64 d (base + 8)) 0 64 ∧
    (load_tables d base).warnings = wcRange (read64 d (base + 8)) 0 64 := by
  refine ⟨⟨?_, ?_, ?_⟩, ?_, ?_, ?_, ?_, ?_⟩
  · show (read8 d (base + 6) &&& 1 == 1) = (read8 d (base + 6)).testBit 0
    simpa using and_pow2_beq (read8 d (base + 6)) 0
  · show (read8 d (base + 6) &&& 2 == 2) = (read8 d (base + 6)).testBit 1
    simpa using and_pow2_beq (read8 d (base + 6)) 1
  · show (read8 d (base + 6) &&& 4 == 4) = (read8 d (base + 6)).testBit 2
    simpa using and_pow2_beq (read8 d (base + 6)) 2
  · show (load_tables_loop (read64 d (base + 8)) d base 0 0 64).1.length = MONO_TABLE_NUM
    rw [ltl_length]
    decide
  · intro t ht hb
    have ht44 : t ≤ 44 := ht
    have h := ltl_rows (read64 d (base + 8)) d base 64 0 0 t (by omega) (by omega)
    simp only [Nat.zero_add] at h
    simp only [load_tables, h, hb, if_true]
  · intro t ht hb
    have ht44 : t ≤ 44 := ht
    have h := ltl_rows (read64 d (base + 8)) d base 64 0 0 t (by omega) (by omega)
    simp only [Nat.zero_add] at h
    simp only [load_tables, h, hb, if_false, Bool.false_eq_true]
  · simp [load_tables, ltl_valid]
  · simp [load_tables, ltl_warn]

theorem C7_load_tables_witness :
    (load_tables exTablesStream 0).idx_blob_wide = (read8 exTablesStream 6).testBit 2 ∧
    (load_tables exTablesStream 0).tables.getD 2 ⟨0⟩ =
      ⟨read32 exTablesStream (0 + 24 + 4 * pcRange (read64 exTablesStream 8) 0 2)⟩ ∧
    (load_tables exTablesStream 0).tables_base =
      0 + 24 + 4 * pcRange (read64 exTablesStream 8) 0 64 := by
  refine ⟨(C7_load_tables exTablesStream 0).1.2.2, ?_, (C7_load_tables exTablesStream 0).2.2.2.2.1⟩
  exact (C7_load_tables exTablesStream 0).2.2.1 2 (by decide) (by decide)

/-- Does every section of an image satisfy the spec's section bound? -/
def sectionsInBounds (img : Image) : Bool :=
  img.sections.all fun s =>
    decide (s.st_raw_data_ptr + s.st_raw_data_size ≤ img.raw_data_len)

/-- Did the load succeed while some section violates the bound? -/
def okWithBadSection (r : Outcome) : Bool :=
  match r with
  | .ok img => !(sectionsInBounds img)
  | _ => false

set_option maxRecDepth 4000 in
/-- Claim C2 counterexample: `exBadSection` opens successfully (non-NULL,
`MONO_IMAGE_OK`) although its single section has
`raw_data_ptr + raw_data_size = 0x1200 > raw_data_len = 352`:
`load_section_tables` only checks that the 40-byte table entries themselves
lie inside the file and never validates the declared raw-data ranges (the
source's loop ends at a bare `/* consistency checks here */` comment). -/
theorem C2_counterexample : okWithBadSection (do_mono_image_load exBadSection false) = true := by
  decide

/-- Claim C2 (corrected): the section bound is not established by a
successful open; it is enforced lazily.  The amended statement:
`mono_image_ensure_section_idx` maps a not-yet-mapped section slot
successfully only if `raw_data_ptr + raw_data_size ≤ raw_data_len` (the sum
taken without 32-bit wrap-around, which the hypothesis rules out). -/
theorem C2_ensure_section_bound (img : Image) (i : Nat)
    (h0 : img.cli_sections.getD i none = none)
    (h1 : (img.sections.getD i default).st_raw_data_ptr +
        (img.sections.getD i default).st_raw_data_size < 2 ^ 32)
    (h2 : (mono_image_ensure_section_idx img i).1 = true) :
    (img.sections.getD i default).st_raw_data_ptr +
      (img.sections.getD i default).st_raw_data_size ≤ img.raw_data_len := by
  unfold mono_image_ensure_section_idx at h2
  by_cases hc : i < img.sections.length
  · rw [if_neg (by simp [hc])] at h2
    rw [h0] at h2
    simp only [Option.isSome_none, Bool.false_eq_true, if_false] at h2
    by_cases hbnd : ((img.sections.getD i default).st_raw_data_ptr +
        (img.sections.getD i default).st_raw_data_size) % 2 ^ 32 > img.raw_data_len
    · rw [if_pos hbnd] at h2
      simp at h2
    · have := Nat.mod_eq_of_lt h1
      omega
  · rw [if_pos (by simp [hc])] at h2
    simp at h2

/-- A cheap concrete image used by witnesses. -/
def witnessImage : Image :=
  { raw_data_len := 100
    sections := [⟨0, 0, 20, 10, 0⟩]
    cli_sections := [none]
    heaps := MetaHeaps.init
    tables := List.replicate MONO_TABLE_NUM ⟨0⟩
    tables_base := 0
    idx_string_wide := false
    idx_guid_wide := false
    idx_blob_wide := false
    guid_bytes := []
    module_count := 0 }

theorem C2_ensure_section_bound_witness :
    (mono_image_ensure_section_idx witnessImage 0).1 = true ∧
    (witnessImage.sections.getD 0 default).st_raw_data_ptr +
      (witnessImage.sections.getD 0 default).st_raw_data_size ≤ witnessImage.raw_data_len := by
  refine ⟨by decide, C2_ensure_section_bound witnessImage 0 (by decide) (by decide) (by decide)⟩

/-- Did the load succeed while the RVA mapper sends `addr` outside the raw
buffer (neither `INVALID_ADDRESS` nor a valid index)? -/
def okWithBadRva (r : Outcome) (addr : Nat) : Bool :=
  match r with
  | .ok img =>
    decide (mono_cli_rva_image_map img.sections addr ≠ INVALID_ADDRESS) &&
      decide (img.raw_data_len ≤ mono_cli_rva_image_map img.sections addr)
  | _ => false

set_option maxRecDepth 4000 in
/-- Claim C3 counterexample: on the successfully opened `exBadSection` image,
`mono_cli_rva_image_map` maps RVA `0x1000` to offset `0x1000`, which is not
the sentinel yet is `≥ raw_data_len = 352` — not a valid index into the raw
buffer (the mapper performs no bounds check against the buffer length). -/
theorem C3_counterexample : okWithBadRva (do_mono_image_load exBadSection false) 0x1000 = true := by
  decide

theorem sectContains_iff (s : SectionTable) (addr : Nat)
    (h : s.st_virtual_address + s.st_raw_data_size < 2 ^ 32) :
    sectContains s addr = true ↔
      (s.st_virtual_address ≤ addr ∧ addr < s.st_virtual_address + s.st_raw_data_size) := by
  have e : (2 : Nat) ^ 32 = 4294967296 := by norm_num
  rw [e] at h
  simp only [sectContains, Bool.and_eq_true, decide_eq_true_eq, e]
  omega

/-- Claim C3 (corrected): for a section table whose entries (a) keep their
raw range inside the `len`-byte buffer and (b) do not overflow 32 bits in
`va + size` — conditions that hold for the sections the claim's universal
quantifier was meant to range over, but which an opened image need not
satisfy (see the counterexample) — the mapper returns `INVALID_ADDRESS` iff
no section contains `addr`, and otherwise returns
`addr - va + raw_data_ptr` of the first containing section, an offset
strictly below `len`. -/
theorem C3_rva_map (secs : List SectionTable) (len addr : Nat)
    (hb : ∀ s ∈ secs, s.st_raw_data_ptr + s.st_raw_data_size ≤ len)
    (hva : ∀ s ∈ secs, s.st_virtual_address + s.st_raw_data_size < 2 ^ 32)
    (hlen : len < 2 ^ 32) :
    (mono_cli_rva_image_map secs addr = INVALID_ADDRESS ↔
      ∀ s ∈ secs, ¬ (s.st_virtual_address ≤ addr ∧
        addr < s.st_virtual_address + s.st_raw_data_size)) ∧
    (∀ s, secs.find? (fun q => sectContains q addr) = some s →
      mono_cli_rva_image_map secs addr =
        addr - s.st_virtual_address + s.st_raw_data_ptr ∧
      mono_cli_rva_image_map secs addr < len) := by
  induction secs with
  | nil =>
    refine ⟨by simp [mono_cli_rva_image_map], ?_⟩
    intro s hs
    simp at hs
  | cons head tail ih =>
    have hbh := hb head (by simp)
    have hvah := hva head (by simp)
    have hbt : ∀ s ∈ tail, s.st_raw_data_ptr + s.st_raw_data_size ≤ len :=
      fun s hs => hb s (by simp [hs])
    have hvat : ∀ s ∈ tail, s.st_virtual_address + s.st_raw_data_size < 2 ^ 32 :=
      fun s hs => hva s (by simp [hs])
    have iht := ih hbt hvat
    by_cases hc : sectContains head addr
    · have hcm := (sectContains_iff head addr hvah).1 hc
      have hres : mono_cli_rva_image_map (head :: tail) addr =
          addr - head.st_virtual_address + head.st_raw_data_ptr := by
        simp only [mono_cli_rva_image_map, hc, if_true]
        exact Nat.mod_eq_of_lt (by omega)
      have hlt : addr - head.st_virtual_address + head.st_raw_data_ptr < len := by omega
      constructor
      · constructor
        · intro hinv
          rw [hres] at hinv
          simp only [INVALID_ADDRESS] at hinv
          exfalso
          omega
        · intro hall
          exact absurd hcm (hall head (by simp))
      · intro s hs
        rw [List.find?_cons_of_pos tail
          (show (fun q => sectContains q addr) head = true from hc)] at hs
        cases hs
        exact ⟨hres, by rw [hres]; exact hlt⟩
    · have hcmn : ¬ (head.st_virtual_address ≤ addr ∧
          addr < head.st_virtual_address + head.st_raw_data_size) :=
        fun hm => hc ((sectContains_iff head addr hvah).2 hm)
      have hres : mono_cli_rva_image_map (head :: tail) addr =
          mono_cli_rva_image_map tail addr := by
        simp only [mono_cli_rva_image_map, hc, if_false, Bool.false_eq_true]
      refine ⟨?_, ?_⟩
      · rw [hres, iht.1]
        constructor
        · intro h s hs
          rcases List.mem_cons.mp hs with rfl | hs2
          · exact hcmn
          · exact h s hs2
        · intro h s hs
          exact h s (List.mem_cons_of_mem _ hs)
      · intro s hs
        rw [List.find?_cons_of_neg tail
          (show ¬ (fun q => sectContains q addr) head = true from hc)] at hs
        rw [hres]
        exact iht.2 s hs

theorem C3_rva_map_witness :
    mono_cli_rva_image_map [⟨0x200, 0x1000, 0x200, 100, 0⟩] 0x1010 =
      0x1010 - 0x1000 + 100 ∧
    mono_cli_rva_image_map [⟨0x200, 0x1000, 0x200, 100, 0⟩] 0x1010 < 0x300 :=
  (C3_rva_map [⟨0x200, 0x1000, 0x200, 100, 0⟩] 0x300 0x1010
    (by decide) (by decide) (by decide)).2 ⟨0x200, 0x1000, 0x200, 100, 0⟩ (by decide)

/-- The PE-envelope failure conditions that `do_mono_image_load` actually
rejects, phrased over the raw bytes: MS-DOS header or `MonoDotNetHeader` or
a section-table entry extending past end of file, MS-DOS signature other
than `M`, `Z`, COFF machine other than `0x14c`, optional-header size other
than 224, PE signature bytes 0 and 1 other than `P`, `E`, or PE magic other
than `0x10B`.  (The source never examines PE signature bytes 2 and 3.) -/
def peEnvelopeViolation (d : List Nat) : Prop :=
  d.length < 64 ∨
  ¬(read8 d 0 = 77 ∧ read8 d 1 = 90) ∨
  read32 d 60 + 248 > d.length ∨
  read16 d (read32 d 60 + 4) ≠ 0x14c ∨
  read16 d (read32 d 60 + 20) ≠ 224 ∨
  ¬(read8 d (read32 d 60) = 80 ∧ read8 d (read32 d 60 + 1) = 69 ∧
    read16 d (read32 d 60 + 24) = 0x10B) ∨
  (1 ≤ read16 d (read32 d 60 + 6) ∧
    read32 d 60 + 248 + 40 * read16 d (read32 d 60 + 6) > d.length)

theorem load_section_tables_none (d : List Nat) :
    ∀ n offset, 1 ≤ n → offset + 40 * n > d.length →
      load_section_tables d offset n = none := by
  intro n
  induction n with
  | zero => intro offset h1 h2; omega
  | succ m ih =>
    intro offset h1 h2
    unfold load_section_tables
    by_cases hc : offset + 40 > d.length
    · rw [if_pos hc]
    · rw [if_neg hc]
      match m, ih with
      | 0, _ => omega
      | m1 + 1, ih =>
        rw [ih (offset + 40) (by omega) (by omega)]

theorem envelope_none_invalid (d : List Nat) (care : Bool)
    (h : parseEnvelope d = none) : do_mono_image_load d care = .invalid := by
  unfold do_mono_image_load
  rw [h]

theorem bnot_and2 (x y a b : Nat) (h : ¬(x = a ∧ y = b)) : (!(x == a && y == b)) = true := by
  by_cases hx : x = a
  · by_cases hy : y = b
    · exact absurd ⟨hx, hy⟩ h
    · simp [hy]
  · simp [hx]

theorem bnot_and3 (x y z a b c : Nat) (h : ¬(x = a ∧ y = b ∧ z = c)) :
    (!(x == a && y == b && z == c)) = true := by
  by_cases hx : x = a
  · by_cases hy : y = b
    · by_cases hz : z = c
      · exact absurd ⟨hx, hy, hz⟩ h
      · simp [hz]
    · simp [hy]
  · simp [hx]

theorem parseEnvelope_none_of_violation (d : List Nat) (h : peEnvelopeViolation d) :
    parseEnvelope d = none := by
  unfold parseEnvelope
  by_cases g1 : 0 + 64 > d.length
  · rw [if_pos g1]
  · rw [if_neg g1]
    by_cases g2 : read8 d 0 = 77 ∧ read8 d 1 = 90
    · rw [if_neg (by simp [g2.1, g2.2])]
      by_cases g3 : read32 d 60 + 248 > d.length
      · rw [if_pos g3]
      · rw [if_neg g3]
        by_cases g4 : read16 d (read32 d 60 + 4) = 0x14c
        · rw [if_neg (by simp [g4])]
          by_cases g5 : read16 d (read32 d 60 + 20) = 224
          · rw [if_neg (by simp [g5])]
            by_cases g6 : read8 d (read32 d 60) = 80 ∧ read8 d (read32 d 60 + 1) = 69 ∧
                read16 d (read32 d 60 + 24) = 0x10B
            · rw [if_neg (by simp [g6.1, g6.2.1, g6.2.2])]
              have g7 : 1 ≤ read16 d (read32 d 60 + 6) ∧
                  read32 d 60 + 248 + 40 * read16 d (read32 d 60 + 6) > d.length := by
                rcases h with h | h | h | h | h | h | h
                · omega
                · exact absurd g2 h
                · omega
                · exact absurd g4 h
                · exact absurd g5 h
                · exact absurd g6 h
                · exact h
              rw [load_section_tables_none d (read16 d (read32 d 60 + 6)) (read32 d 60 + 248)
                g7.1 (by omega)]
            · rw [if_pos (bnot_and3 _ _ _ _ _ _ g6)]
          · rw [if_pos (by simp [g5])]
        · rw [if_pos (by simp [g4])]
    · rw [if_pos (bnot_and2 _ _ _ _ g2)]

/-- Claim C6 (corrected): every input that fails the envelope checks the
source makes — MS-DOS signature, header reads past end of file, COFF
machine, optional-header size, PE signature bytes `P`, `E` and magic
`0x10B` — makes the open return NULL with status `IMAGE_INVALID`, for both
the CLI-aware and PE-only flavors.  The claim's original condition also
listed PE signature bytes 2 and 3 (`P`,`E`,`0`,`0`); the source only checks
`pesig [0]` and `pesig [1]`, so inputs whose signature differs only in
bytes 2-3 open successfully (see the counterexample). -/
theorem C6_envelope_invalid (d : List Nat) (care : Bool) (h : peEnvelopeViolation d) :
    do_mono_image_load d care = .invalid :=
  envelope_none_invalid d care (parseEnvelope_none_of_violation d h)

set_option maxRecDepth 4000 in
/-- Claim C6 counterexample: `exBadPesig` has PE signature bytes
`P`, `E`, `A`, `B` (bytes 2, 3 nonzero, violating the claim's
`P`,`E`,`0`,`0` condition) yet `do_mono_image_load` succeeds rather than
returning NULL with `IMAGE_INVALID`. -/
theorem C6_counterexample :
    read8 exBadPesig (read32 exBadPesig 60 + 2) = 65 ∧
    read8 exBadPesig (read32 exBadPesig 60 + 3) = 66 ∧
    (do_mono_image_load exBadPesig false).isOk = true := by
  refine ⟨by decide, by decide, by decide⟩

theorem C6_envelope_invalid_witness :
    peEnvelopeViolation [77] ∧ do_mono_image_load [77] true = .invalid ∧
    do_mono_image_load [77] false = .invalid :=
  ⟨Or.inl (by decide),
    C6_envelope_invalid [77] true (Or.inl (by decide)),
    C6_envelope_invalid [77] false (Or.inl (by decide))⟩

/-- Claim C1 (corrected): when a CLI open gets as far as walking the
metadata streams and ends up with no `#GUID` heap, or with a `#GUID` heap
shorter than 16 bytes, the open does not return NULL with `IMAGE_INVALID`:
`load_metadata_ptrs` runs `g_assert (image->heap_guid.data)` and
`g_assert (image->heap_guid.size >= 16)`, and a failed `g_assert` aborts
the process. -/
theorem C1_missing_guid_aborts (d : List Nat) (secs : List SectionTable)
    (cliRva mdRva mdSize mdOfs : Nat) (hp : MetaHeaps)
    (h1 : parseEnvelope d = some (secs, cliRva))
    (h2 : load_cli_header d secs cliRva = some (mdRva, mdSize))
    (h3 : load_metadata_ptrs d secs mdRva mdSize = some (mdOfs, hp))
    (h4 : hp.heap_guid = none ∨ ∃ gofs gsz, hp.heap_guid = some (gofs, gsz) ∧ gsz < 16) :
    do_mono_image_load d true = .abort := by
  rcases h4 with hg | ⟨gofs, gsz, hg, hlt⟩
  · simp [do_mono_image_load, h1, h2, h3, hg]
  · simp [do_mono_image_load, h1, h2, h3, hg, hlt]

/-- The section table and heap layout `do_mono_image_load` extracts from
`exNoGuid` (used to instantiate `C1_missing_guid_aborts` concretely). -/
def exNoGuidSection : SectionTable := ⟨0x200, 0x1000, 0x200, 352, 0⟩

def exNoGuidHeaps : MetaHeaps :=
  { heap_tables := some (668, 24), heap_strings := none, heap_us := none,
    heap_blob := none, heap_guid := none, uncompressed_metadata := false }

set_option maxRecDepth 8000 in
theorem C1_missing_guid_aborts_witness :
    parseEnvelope exNoGuid = some ([exNoGuidSection], 0x1000) ∧
    load_cli_header exNoGuid [exNoGuidSection] 0x1000 = some (0x1100, 100) ∧
    load_metadata_ptrs exNoGuid [exNoGuidSection] 0x1100 100 = some (608, exNoGuidHeaps) ∧
    do_mono_image_load exNoGuid true = .abort := by
  refine ⟨by decide, by decide, by decide,
    C1_missing_guid_aborts exNoGuid [exNoGuidSection] 0x1000 0x1100 100 608 exNoGuidHeaps
      (by decide) (by decide) (by decide) (Or.inl rfl)⟩

set_option maxRecDepth 8000 in
/-- Claim C1 counterexample: `exNoGuid` is a CLI image whose metadata
streams lack a `#GUID` heap (its one stream is `#~`); opening it neither
succeeds nor returns NULL with `IMAGE_INVALID` — the load aborts on the
failed `g_assert`. -/
theorem C1_counterexample :
    (load_metadata_ptrs exNoGuid [exNoGuidSection] 0x1100 100).map
        (fun r => r.2.heap_guid) = some none ∧
    do_mono_image_load exNoGuid true = .abort ∧
    do_mono_image_load exNoGuid true ≠ .invalid := by
  refine ⟨by decide, by decide, by decide⟩

/-- Identity canonicalization, used to drive concrete registry scenarios
(a filesystem with no symlinks and already-normal paths). -/
def canonIdent : String → String := fun s => s

/-- The C5 failing scenario: open ref-only image 1 at path "a" with GUID
"g", open ref-only image 2 at path "b" with the same GUID, close image 2
(drops its last reference), then close image 1. -/
def c5_st1 : Registry := (mono_image_open_full canonIdent regInit "a" true (some ("g", none)) 1).2

def c5_st2 : Registry := (mono_image_open_full canonIdent c5_st1 "b" true (some ("g", none)) 2).2

def c5_st3 : Registry := mono_image_close c5_st2 2

def c5_st4 : Registry := mono_image_close c5_st3 1

/-- Claim C5 (code_bug): after closing ref-only image 2, surviving ref-only
image 1 is still in the ref-only path map but is NOT indexed in the
ref-only GUID map — the rebuild inserted it into the NON-ref-only GUID map
instead, because `register_guid` hard-codes `loaded_images_guid_hash` (and
its duplicate check looks the image pointer up as a string key, never
matching).  After image 1 is itself closed and freed, the non-ref-only GUID
map still holds a dangling entry for it, so the closed image has not
vanished from every map either. -/
theorem C5_guid_rebuild_bug :
    alLookup "a" c5_st3.path_r = some 1 ∧
    alLookup "g" c5_st3.guid_r = none ∧
    alLookup "g" c5_st3.guid_n = some 1 ∧
    alLookup "g" c5_st4.guid_n = some 1 ∧
    getImg c5_st4 1 = none := by
  refine ⟨by decide, by decide, by decide, by decide, by decide⟩

/-!  Association-list (`GHashTable`) lemmas. -/

theorem alLookup_insert_self {κ α : Type} [DecidableEq κ] (k : κ) (v : α)
    (m : List (κ × α)) : alLookup k (alInsert k v m) = some v := by
  simp [alLookup, alInsert]

theorem alLookup_remove_self {κ α : Type} [DecidableEq κ] (k : κ) (m : List (κ × α)) :
    alLookup k (alRemove k m) = none := by
  induction m with
  | nil => rfl
  | cons q l ih =>
    by_cases hq : q.1 = k
    · simpa [alRemove, hq] using ih
    · simpa [alRemove, alLookup, hq] using ih

theorem alLookup_remove_ne {κ α : Type} [DecidableEq κ] (k k2 : κ) (m : List (κ × α))
    (h : k ≠ k2) : alLookup k (alRemove k2 m) = alLookup k m := by
  induction m with
  | nil => rfl
  | cons q l ih =>
    by_cases hq : q.1 = k2
    · have hk : ¬ q.1 = k := fun hc => h (hc.symm.trans hq)
      show alLookup k (if q.1 = k2 then alRemove k2 l else q :: alRemove k2 l) =
        alLookup k (q :: l)
      rw [if_pos hq, ih]
      show alLookup k l = if q.1 = k then some q.2 else alLookup k l
      rw [if_neg hk]
    · show alLookup k (if q.1 = k2 then alRemove k2 l else q :: alRemove k2 l) =
        alLookup k (q :: l)
      rw [if_neg hq]
      show (if q.1 = k then some q.2 else alLookup k (alRemove k2 l)) =
        if q.1 = k then some q.2 else alLookup k l
      rw [ih]

theorem alLookup_insert_ne {κ α : Type} [DecidableEq κ] (k k2 : κ) (v : α)
    (m : List (κ × α)) (h : k ≠ k2) :
    alLookup k (alInsert k2 v m) = alLookup k m := by
  have hk : ¬ (k2 = k) := fun hc => h hc.symm
  simp only [alInsert, alLookup, hk, if_false]
  exact alLookup_remove_ne k k2 m h

/-!  Registry state lemmas. -/

theorem pathMap_setImg (st : Registry) (i : Nat) (e : ImgEntry) (ro : Bool) :
    pathMap (setImg st i e) ro = pathMap st ro := by cases ro <;> rfl

theorem pathMap_delImg (st : Registry) (i : Nat) (ro : Bool) :
    pathMap (delImg st i) ro = pathMap st ro := by cases ro <;> rfl

theorem pathMap_setGuidMap (st : Registry) (ro2 ro : Bool) (m : List (String × Nat)) :
    pathMap (setGuidMap st ro2 m) ro = pathMap st ro := by
  cases ro <;> cases ro2 <;> rfl

theorem pathMap_setPathMap (st : Registry) (ro2 ro : Bool) (m : List (String × Nat)) :
    pathMap (setPathMap st ro2 m) ro = if ro = ro2 then m else pathMap st ro := by
  cases ro <;> cases ro2 <;> simp [pathMap, setPathMap]

theorem imgs_setPathMap (st : Registry) (ro : Bool) (m : List (String × Nat)) :
    (setPathMap st ro m).imgs = st.imgs := by cases ro <;> rfl

theorem imgs_setGuidMap (st : Registry) (ro : Bool) (m : List (String × Nat)) :
    (setGuidMap st ro m).imgs = st.imgs := by cases ro <;> rfl

theorem getImg_setImg (st : Registry) (i : Nat) (e : ImgEntry) (j : Nat) :
    getImg (setImg st i e) j = if j = i then some e else getImg st j := by
  by_cases h : j = i
  · subst h
    simp [getImg, setImg, alLookup_insert_self]
  · simp only [getImg, setImg, h, if_false]
    exact alLookup_insert_ne j i e st.imgs h

theorem getImg_delImg (st : Registry) (i : Nat) (j : Nat) :
    getImg (delImg st i) j = if j = i then none else getImg st j := by
  by_cases h : j = i
  · subst h
    simp [getImg, delImg, alLookup_remove_self]
  · simp only [getImg, delImg, h, if_false]
    exact alLookup_remove_ne j i st.imgs h

theorem register_guid_path (st : Registry) (v : Nat) (ro : Bool) :
    pathMap (register_guid st v) ro = pathMap st ro := by
  unfold register_guid
  cases h : getImg st v
  · rfl
  · cases ro <;> rfl

theorem register_guid_imgs (st : Registry) (v : Nat) :
    (register_guid st v).imgs = st.imgs := by
  unfold register_guid
  cases h : getImg st v <;> rfl

theorem foldl_register_guid_path (l : List (String × Nat)) :
    ∀ (st : Registry) (ro : Bool),
      pathMap (l.foldl (fun s q => register_guid s q.2) st) ro = pathMap st ro := by
  induction l with
  | nil => intro st ro; rfl
  | cons q l ih =>
    intro st ro
    rw [List.foldl_cons, ih, register_guid_path]

theorem foldl_register_guid_imgs (l : List (String × Nat)) :
    ∀ st : Registry, (l.foldl (fun s q => register_guid s q.2) st).imgs = st.imgs := by
  induction l with
  | nil => intro st; rfl
  | cons q l ih =>
    intro st
    rw [List.foldl_cons, ih, register_guid_imgs]

theorem build_guid_table_path (st : Registry) (ro2 ro : Bool) :
    pathMap (build_guid_table st ro2) ro = pathMap st ro :=
  foldl_register_guid_path (pathMap st ro2) st ro

theorem build_guid_table_getImg (st : Registry) (ro2 : Bool) (j : Nat) :
    getImg (build_guid_table st ro2) j = getImg st j := by
  unfold getImg
  rw [show (build_guid_table st ro2).imgs = st.imgs from
    foldl_register_guid_imgs (pathMap st ro2) st]

theorem d1_imgs (st : Registry) (img : RegImage) (i : Nat) :
    (close_dereg1 st img i).imgs = st.imgs := by
  unfold close_dereg1
  by_cases hg : alLookup img.name (pathMap st img.ref_only) = some i
  · rw [if_pos hg, imgs_setGuidMap, imgs_setPathMap]
  · rw [if_neg hg]

theorem d2_imgs (st : Registry) (img : RegImage) (i : Nat) :
    (close_dereg2 st img i).imgs = st.imgs := by
  unfold close_dereg2
  cases han : img.assembly_name with
  | none => rfl
  | some an =>
    dsimp only
    by_cases hg : alLookup an (pathMap st img.ref_only) = some i
    · rw [if_pos hg, imgs_setPathMap]
    · rw [if_neg hg]

theorem d1_lookup (st : Registry) (img : RegImage) (i : Nat) (ro : Bool) (k : String) :
    alLookup k (pathMap (close_dereg1 st img i) ro) = alLookup k (pathMap st ro) ∨
    (alLookup k (pathMap (close_dereg1 st img i) ro) = none ∧ ro = img.ref_only ∧
      k = img.name ∧ alLookup img.name (pathMap st img.ref_only) = some i) := by
  unfold close_dereg1
  by_cases hg : alLookup img.name (pathMap st img.ref_only) = some i
  · rw [if_pos hg, pathMap_setGuidMap, pathMap_setPathMap]
    by_cases hro : ro = img.ref_only
    · rw [if_pos hro]
      by_cases hk : k = img.name
      · subst hk
        exact Or.inr ⟨alLookup_remove_self _ _, hro, rfl, hg⟩
      · left
        rw [alLookup_remove_ne _ _ _ hk, hro]
    · rw [if_neg hro]
      left
      rfl
  · rw [if_neg hg]
    left
    rfl

theorem d2_lookup (st : Registry) (img : RegImage) (i : Nat) (ro : Bool) (k : String) :
    alLookup k (pathMap (close_dereg2 st img i) ro) = alLookup k (pathMap st ro) ∨
    (alLookup k (pathMap (close_dereg2 st img i) ro) = none ∧ ro = img.ref_only ∧
      img.assembly_name = some k ∧ alLookup k (pathMap st img.ref_only) = some i) := by
  unfold close_dereg2
  cases han : img.assembly_name with
  | none => left; rfl
  | some an =>
    dsimp only
    by_cases hg : alLookup an (pathMap st img.ref_only) = some i
    · rw [if_pos hg, pathMap_setPathMap]
      by_cases hro : ro = img.ref_only
      · rw [if_pos hro]
        by_cases hk : k = an
        · subst hk
          exact Or.inr ⟨alLookup_remove_self _ _, hro, rfl, hg⟩
        · left
          rw [alLookup_remove_ne _ _ _ hk, hro]
      · rw [if_neg hro]
        left
        rfl
    · rw [if_neg hg]
      left
      rfl

theorem d1_name_none (st : Registry) (img : RegImage) (i : Nat)
    (hg : alLookup img.name (pathMap st img.ref_only) = some i) :
    alLookup img.name (pathMap (close_dereg1 st img i) img.ref_only) = none := by
  unfold close_dereg1
  rw [if_pos hg, pathMap_setGuidMap, pathMap_setPathMap, if_pos rfl]
  exact alLookup_remove_self _ _

theorem d2_no_i (st : Registry) (img : RegImage) (i : Nat) (an : String)
    (han : img.assembly_name = some an) :
    alLookup an (pathMap (close_dereg2 st img i) img.ref_only) ≠ some i := by
  unfold close_dereg2
  rw [han]
  dsimp only
  by_cases hg : alLookup an (pathMap st img.ref_only) = some i
  · rw [if_pos hg, pathMap_setPathMap, if_pos rfl, alLookup_remove_self]
    simp
  · rw [if_neg hg]
    exact hg

/-- The registry-relevant fields of a live image. -/
def infoOf (st : Registry) (v : Nat) : Option RegImage := (getImg st v).map (·.info)

/-- The registry invariant behind claim C4: every path-map entry points to a
live image of the matching partition, under either its name or its assembly
name, and the image's own name still resolves to it. -/
def RegWF (st : Registry) : Prop :=
  ∀ ro k j, alLookup k (pathMap st ro) = some j →
    ∃ im : RegImage, infoOf st j = some im ∧ im.ref_only = ro ∧
      (k = im.name ∨ im.assembly_name = some k) ∧
      alLookup im.name (pathMap st ro) = some j

theorem infoOf_setImg (st : Registry) (i : Nat) (e : ImgEntry) (v : Nat) :
    infoOf (setImg st i e) v = if v = i then some e.info else infoOf st v := by
  rw [infoOf, getImg_setImg]
  by_cases h : v = i <;> simp [h, infoOf]

theorem addref_path (st : Registry) (j : Nat) (ro : Bool) :
    pathMap (mono_image_addref st j) ro = pathMap st ro := by
  unfold mono_image_addref
  cases h : getImg st j with
  | none => rfl
  | some e =>
    dsimp only
    rw [pathMap_setImg]

theorem infoOf_addref (st : Registry) (j v : Nat) :
    infoOf (mono_image_addref st j) v = infoOf st v := by
  unfold mono_image_addref
  cases h : getImg st j with
  | none => rfl
  | some e =>
    dsimp only
    rw [infoOf_setImg]
    by_cases hv : v = j
    · subst hv
      rw [if_pos rfl]
      simp [infoOf, h]
    · rw [if_neg hv]

/-- A state whose path maps and (reachable) image infos agree with a
well-formed state is well-formed. -/
theorem wf_of_same (st st2 : Registry)
    (hp : ∀ ro k, alLookup k (pathMap st2 ro) = alLookup k (pathMap st ro))
    (hi : ∀ v, (∃ ro k, alLookup k (pathMap st ro) = some v) → infoOf st2 v = infoOf st v)
    (hwf : RegWF st) : RegWF st2 := by
  intro ro k v hl
  rw [hp] at hl
  obtain ⟨im, h1, h2, h3, h4⟩ := hwf ro k v hl
  exact ⟨im, by rw [hi v ⟨ro, k, hl⟩]; exact h1, h2, h3, by rw [hp]; exact h4⟩

theorem wf_addref (st : Registry) (j : Nat) (hwf : RegWF st) :
    RegWF (mono_image_addref st j) :=
  wf_of_same st _ (fun ro k => by rw [addref_path])
    (fun v _ => infoOf_addref st j v) hwf

/-- No path-map entry of a well-formed registry points to a dead image. -/
theorem wf_no_dead (st : Registry) (hwf : RegWF st) (fr : Nat)
    (hfr : getImg st fr = none) :
    ∀ ro k, alLookup k (pathMap st ro) ≠ some fr := by
  intro ro k hc
  obtain ⟨im, h1, _⟩ := hwf ro k fr hc
  rw [infoOf, hfr] at h1
  cases h1

theorem stB_subset (st : Registry) (img : RegImage) (i : Nat) (ro : Bool) (k : String)
    (v : Nat)
    (hb : alLookup k (pathMap (close_dereg2 (close_dereg1 st img i) img i) ro) = some v) :
    alLookup k (pathMap st ro) = some v := by
  rcases d2_lookup (close_dereg1 st img i) img i ro k with hd | ⟨hn, _⟩
  · rw [hd] at hb
    rcases d1_lookup st img i ro k with hd1 | ⟨hn1, _⟩
    · rw [hd1] at hb
      exact hb
    · rw [hn1] at hb
      cases hb
  · rw [hn] at hb
    cases hb

theorem stB_no_i (st : Registry) (e : ImgEntry) (i : Nat)
    (hg : getImg st i = some e) (hwf : RegWF st) :
    ∀ ro k,
      alLookup k (pathMap (close_dereg2 (close_dereg1 st e.info i) e.info i) ro) ≠
        some i := by
  intro ro k hb
  have hst := stB_subset st e.info i ro k i hb
  obtain ⟨im, h1, h2, h3, h4⟩ := hwf ro k i hst
  have him : im = e.info := by
    rw [infoOf, hg] at h1
    exact (Option.some.inj h1).symm
  rw [him] at h2 h3 h4
  have hro : ro = e.info.ref_only := h2.symm
  have hguard : alLookup e.info.name (pathMap st e.info.ref_only) = some i := by
    rw [← hro]
    exact h4
  rcases h3 with hk | hk
  · subst hk
    have hnone := d1_name_none st e.info i hguard
    rcases d2_lookup (close_dereg1 st e.info i) e.info i ro e.info.name with hd | ⟨hn, _⟩
    · rw [hd, hro, hnone] at hb
      cases hb
    · rw [hn] at hb
      cases hb
  · have hno := d2_no_i (close_dereg1 st e.info i) e.info i k hk
    rw [hro] at hb
    exact hno hb

theorem stB_preserve_self (st : Registry) (e : ImgEntry) (i : Nat)
    (hg : getImg st i = some e) (hwf : RegWF st) (ro : Bool) (nm : String) (v : Nat)
    (hvi : v ≠ i) (hself : alLookup nm (pathMap st ro) = some v) :
    alLookup nm (pathMap (close_dereg2 (close_dereg1 st e.info i) e.info i) ro) =
      some v := by
  rcases d2_lookup (close_dereg1 st e.info i) e.info i ro nm with hd | ⟨hn, hro2, hasm, hlA⟩
  · rw [hd]
    rcases d1_lookup st e.info i ro nm with hd1 | ⟨hn1, hro1, hk1, hg1⟩
    · rw [hd1]
      exact hself
    · exfalso
      apply hvi
      have hsv : alLookup e.info.name (pathMap st e.info.ref_only) = some v := by
        rw [← hk1, ← hro1]
        exact hself
      rw [hg1] at hsv
      exact (Option.some.inj hsv).symm
  · exfalso
    rcases d1_lookup st e.info i e.info.ref_only nm with hd1 | ⟨hn1, _, hk1, hg1⟩
    · rw [hd1] at hlA
      apply hvi
      rw [hro2] at hself
      rw [hself] at hlA
      exact Option.some.inj hlA
    · rw [hn1] at hlA
      cases hlA

theorem wf_close (st : Registry) (i : Nat) (hwf : RegWF st) :
    RegWF (mono_image_close st i) := by
  unfold mono_image_close
  cases hg : getImg st i with
  | none => exact hwf
  | some e =>
    dsimp only
    by_cases hrc : 1 < e.rc
    · rw [if_pos hrc]
      refine wf_of_same st _ ?_ ?_ hwf
      · intro ro k
        rw [pathMap_setImg]
      · intro v hv
        rw [infoOf_setImg]
        by_cases hvi : v = i
        · subst hvi
          rw [if_pos rfl]
          simp [infoOf, hg]
        · rw [if_neg hvi]
    · rw [if_neg hrc]
      intro ro k v hl
      rw [pathMap_delImg, build_guid_table_path] at hl
      have hvi : v ≠ i := fun hc => stB_no_i st e i hg hwf ro k (hc ▸ hl)
      have hst := stB_subset st e.info i ro k v hl
      obtain ⟨im, h1, h2, h3, h4⟩ := hwf ro k v hst
      refine ⟨im, ?_, h2, h3, ?_⟩
      · rw [infoOf, getImg_delImg, if_neg hvi, build_guid_table_getImg]
        rw [show getImg (close_dereg2 (close_dereg1 st e.info i) e.info i) v =
            getImg st v from by unfold getImg; rw [d2_imgs, d1_imgs]]
        exact h1
      · rw [pathMap_delImg, build_guid_table_path]
        exact stB_preserve_self st e i hg hwf ro im.name v hvi h4

/-- The protected lookup survives any `close`. -/
theorem lk_close (st : Registry) (i j : Nat) (key : String) (r : Bool)
    (hwf : RegWF st) (hlk : alLookup key (pathMap st r) = some i)
    (hok : j ≠ i ∨ 1 < rcOf st j) :
    alLookup key (pathMap (mono_image_close st j) r) = some i := by
  unfold mono_image_close
  cases hg : getImg st j with
  | none => exact hlk
  | some e =>
    dsimp only
    by_cases hrc : 1 < e.rc
    · rw [if_pos hrc, pathMap_setImg]
      exact hlk
    · rw [if_neg hrc]
      have hji : j ≠ i := by
        rcases hok with h | h
        · exact h
        · rw [rcOf, hg] at h
          exact absurd h (by simpa using hrc)
      rw [pathMap_delImg, build_guid_table_path]
      exact stB_preserve_self st e j hg hwf r key i (fun hc => hji hc.symm) hlk

theorem getImg_setPathMap (st : Registry) (ro : Bool) (m : List (String × Nat)) (j : Nat) :
    getImg (setPathMap st ro m) j = getImg st j := by cases ro <;> rfl

theorem getImg_setGuidMap (st : Registry) (ro : Bool) (m : List (String × Nat)) (j : Nat) :
    getImg (setGuidMap st ro m) j = getImg st j := by cases ro <;> rfl

/-- The state `register_image` produces on the path-miss branch (the only
branch reachable without concurrency), after `do_mono_image_open` built a
fresh image `fr` named `key` with GUID `g` and assembly name `an` in
partition `ro`. -/
def registerPost (st : Registry) (fr : Nat) (key g : String) (an : Option String)
    (ro : Bool) : Registry :=
  let st1 := setImg st fr ⟨⟨key, g, an, ro⟩, 1⟩
  let st2 := setPathMap st1 ro (alInsert key fr (pathMap st1 ro))
  let st3 :=
    match an with
    | some a =>
      if alLookup a (pathMap st2 ro) = none then
        setPathMap st2 ro (alInsert a fr (pathMap st2 ro))
      else st2
    | none => st2
  setGuidMap st3 ro (alInsert g fr (guidMap st3 ro))

theorem register_image_miss (st : Registry) (fr : Nat) (key g : String)
    (an : Option String) (ro : Bool) (hl : alLookup key (pathMap st ro) = none) :
    register_image (setImg st fr ⟨⟨key, g, an, ro⟩, 1⟩) fr =
      (fr, registerPost st fr key g an ro) := by
  unfold register_image
  rw [show getImg (setImg st fr ⟨⟨key, g, an, ro⟩, 1⟩) fr =
      some ⟨⟨key, g, an, ro⟩, 1⟩ from by rw [getImg_setImg, if_pos rfl]]
  dsimp only
  rw [show alLookup key (pathMap (setImg st fr ⟨⟨key, g, an, ro⟩, 1⟩) ro) = none from by
    rw [pathMap_setImg]; exact hl]
  rfl

theorem lookup_insert_partition (st : Registry) (ro : Bool) (key : String) (fr : Nat)
    (ro2 : Bool) (k : String) :
    alLookup k (pathMap (setPathMap st ro (alInsert key fr (pathMap st ro))) ro2) =
      if ro2 = ro ∧ k = key then some fr else alLookup k (pathMap st ro2) := by
  rw [pathMap_setPathMap]
  by_cases hro : ro2 = ro
  · rw [if_pos hro]
    by_cases hk : k = key
    · subst hk
      rw [alLookup_insert_self, if_pos ⟨hro, rfl⟩]
    · rw [alLookup_insert_ne _ _ _ _ hk, if_neg (fun hc => hk hc.2), hro]
  · rw [if_neg hro, if_neg (fun hc => hro hc.1)]

theorem registerPost_getImg (st : Registry) (fr : Nat) (key g : String)
    (an : Option String) (ro : Bool) (v : Nat) :
    getImg (registerPost st fr key g an ro) v =
      getImg (setImg st fr ⟨⟨key, g, an, ro⟩, 1⟩) v := by
  unfold registerPost
  dsimp only
  rw [getImg_setGuidMap]
  cases an with
  | none =>
    dsimp only
    rw [getImg_setPathMap]
  | some a =>
    dsimp only
    rw [apply_ite (fun s => getImg s v)]
    simp only [getImg_setPathMap]
    rw [ite_self]

theorem registerPost_lookup (st : Registry) (fr : Nat) (key g : String)
    (an : Option String) (ro : Bool) (ro2 : Bool) (k : String) :
    alLookup k (pathMap (registerPost st fr key g an ro) ro2) =
      if ro2 = ro ∧ k = key then some fr
      else if ro2 = ro ∧ an = some k ∧ alLookup k (pathMap st ro) = none ∧ k ≠ key then
        some fr
      else alLookup k (pathMap st ro2) := by
  unfold registerPost
  dsimp only
  rw [pathMap_setGuidMap]
  cases an with
  | none =>
    dsimp only
    rw [lookup_insert_partition, pathMap_setImg]
    by_cases h1 : ro2 = ro ∧ k = key
    · rw [if_pos h1, if_pos h1]
    · rw [if_neg h1, if_neg h1, if_neg (by rintro ⟨_, h, _⟩; cases h)]
  | some a =>
    dsimp only
    rw [apply_ite (fun s => alLookup k (pathMap s ro2))]
    simp only [lookup_insert_partition]
    simp only [pathMap_setImg, eq_self_iff_true, true_and]
    by_cases hak : a = key
    · rw [if_pos hak, if_neg (show ¬ (some fr = none) by simp)]
      by_cases h1 : ro2 = ro ∧ k = key
      · rw [if_pos h1, if_pos h1]
      · rw [if_neg h1, if_neg h1]
        rw [if_neg (by
          rintro ⟨hro2, ha2, hl2, hne⟩
          exact hne ((Option.some.inj ha2).symm.trans hak))]
    · rw [if_neg hak]
      by_cases hlook : alLookup a (pathMap st ro) = none
      · rw [if_pos hlook]
        by_cases h1 : ro2 = ro ∧ k = key
        · have hka : ¬ (ro2 = ro ∧ k = a) := by
            rintro ⟨_, hk⟩
            exact hak (hk.symm.trans h1.2)
          rw [if_neg hka, if_pos h1, if_pos h1]
        · by_cases h3 : ro2 = ro ∧ k = a
          · rw [if_pos h3, if_pos (show ro2 = ro ∧ some a = some k ∧
              alLookup k (pathMap st ro) = none ∧ k ≠ key from
              ⟨h3.1, by rw [h3.2], by rw [h3.2]; exact hlook,
                fun hc => h1 ⟨h3.1, hc⟩⟩), if_neg h1]
          · rw [if_neg h3, if_neg h1, if_neg h1]
            rw [if_neg (by
              rintro ⟨hro2, ha2, hl2, hne⟩
              exact h3 ⟨hro2, (Option.some.inj ha2).symm⟩)]
      · rw [if_neg hlook]
        by_cases h1 : ro2 = ro ∧ k = key
        · rw [if_pos h1, if_pos h1]
        · rw [if_neg h1, if_neg h1]
          rw [if_neg (by
            rintro ⟨hro2, ha2, hl2, hne⟩
            apply hlook
            rw [show a = k from Option.some.inj ha2]
            exact hl2)]

theorem close_fresh (st : Registry) (fr : Nat) (key2 g2 : String) (ro2 : Bool)
    (hfr : getImg st fr = none) (hwf : RegWF st) :
    (∀ ro k, alLookup k
        (pathMap (mono_image_close (setImg st fr ⟨⟨key2, g2, none, ro2⟩, 1⟩) fr) ro) =
      alLookup k (pathMap st ro)) ∧
    (∀ v, v ≠ fr →
      infoOf (mono_image_close (setImg st fr ⟨⟨key2, g2, none, ro2⟩, 1⟩) fr) v =
        infoOf st v) := by
  have hg1 : getImg (setImg st fr ⟨⟨key2, g2, none, ro2⟩, 1⟩) fr =
      some ⟨⟨key2, g2, none, ro2⟩, 1⟩ := by rw [getImg_setImg, if_pos rfl]
  have hd1 : close_dereg1 (setImg st fr ⟨⟨key2, g2, none, ro2⟩, 1⟩)
      ⟨key2, g2, none, ro2⟩ fr = setImg st fr ⟨⟨key2, g2, none, ro2⟩, 1⟩ := by
    unfold close_dereg1
    dsimp only
    rw [if_neg (by rw [pathMap_setImg]; exact wf_no_dead st hwf fr hfr ro2 key2)]
  have hd2 : ∀ s : Registry, close_dereg2 s (⟨key2, g2, none, ro2⟩ : RegImage) fr = s := by
    intro s
    rfl
  unfold mono_image_close
  rw [hg1]
  dsimp only
  rw [if_neg (by decide), hd1, hd2]
  constructor
  · intro ro k
    rw [pathMap_delImg, build_guid_table_path, pathMap_setImg]
  · intro v hv
    rw [infoOf, getImg_delImg, if_neg hv, build_guid_table_getImg, getImg_setImg,
      if_neg hv]
    rfl

theorem open_spec (canon : String → String) (st : Registry) (f : String) (ro : Bool)
    (p : Option (String × Option String)) (fr : Nat) :
    (∃ i2, alLookup (canon f) (pathMap st ro) = some i2 ∧
      mono_image_open_full canon st f ro p fr = (some i2, mono_image_addref st i2)) ∨
    (alLookup (canon f) (pathMap st ro) = none ∧ p = none ∧
      mono_image_open_full canon st f ro p fr =
        (none, mono_image_close (setImg st fr ⟨⟨canon f, "", none, ro⟩, 1⟩) fr)) ∨
    (∃ g an, alLookup (canon f) (pathMap st ro) = none ∧ p = some (g, an) ∧
      mono_image_open_full canon st f ro p fr =
        (some fr, registerPost st fr (canon f) g an ro)) := by
  unfold mono_image_open_full
  dsimp only
  cases hl : alLookup (canon f) (pathMap st ro) with
  | some i2 =>
    dsimp only
    exact Or.inl ⟨i2, rfl, rfl⟩
  | none =>
    dsimp only
    cases p with
    | none => exact Or.inr (Or.inl ⟨rfl, rfl, rfl⟩)
    | some pr =>
      obtain ⟨g, an⟩ := pr
      dsimp only
      refine Or.inr (Or.inr ⟨g, an, rfl, rfl, ?_⟩)
      rw [register_image_miss st fr (canon f) g an ro hl]

theorem wf_registerPost (st : Registry) (fr : Nat) (key g : String) (an : Option String)
    (ro : Bool) (hwf : RegWF st) (hfr : getImg st fr = none)
    (hl : alLookup key (pathMap st ro) = none) :
    RegWF (registerPost st fr key g an ro) := by
  have hinfo_fr : infoOf (registerPost st fr key g an ro) fr = some ⟨key, g, an, ro⟩ := by
    rw [infoOf, registerPost_getImg, getImg_setImg, if_pos rfl]
    rfl
  have hself : alLookup key (pathMap (registerPost st fr key g an ro) ro) = some fr := by
    rw [registerPost_lookup, if_pos ⟨rfl, rfl⟩]
  intro ro2 k v hl2
  rw [registerPost_lookup] at hl2
  by_cases h1 : ro2 = ro ∧ k = key
  · rw [if_pos h1] at hl2
    have hv : v = fr := (Option.some.inj hl2).symm
    subst hv
    refine ⟨⟨key, g, an, ro⟩, hinfo_fr, h1.1.symm, Or.inl h1.2, ?_⟩
    rw [h1.1]
    exact hself
  · rw [if_neg h1] at hl2
    by_cases h2 : ro2 = ro ∧ an = some k ∧ alLookup k (pathMap st ro) = none ∧ k ≠ key
    · rw [if_pos h2] at hl2
      have hv : v = fr := (Option.some.inj hl2).symm
      subst hv
      refine ⟨⟨key, g, an, ro⟩, hinfo_fr, h2.1.symm, Or.inr h2.2.1, ?_⟩
      rw [h2.1]
      exact hself
    · rw [if_neg h2] at hl2
      obtain ⟨im, hv1, hv2, hv3, hv4⟩ := hwf ro2 k v hl2
      have hvfr : v ≠ fr := by
        intro hc
        exact wf_no_dead st hwf fr hfr ro2 k (hc ▸ hl2)
      refine ⟨im, ?_, hv2, hv3, ?_⟩
      · rw [infoOf, registerPost_getImg, getImg_setImg, if_neg hvfr]
        exact hv1
      · rw [registerPost_lookup]
        rw [if_neg (by
          rintro ⟨hro2, hnm⟩
          rw [hro2] at hv4
          rw [hnm] at hv4
          rw [hl] at hv4
          cases hv4)]
        rw [if_neg (by
          rintro ⟨hro2, _, hnone, _⟩
          rw [hro2] at hv4
          rw [hnone] at hv4
          cases hv4)]
        exact hv4

theorem open_wf_lk (canon : String → String) (st : Registry) (f : String) (ro : Bool)
    (p : Option (String × Option String)) (fr : Nat) (hwf : RegWF st)
    (hfr : getImg st fr = none) (key : String) (r : Bool) (i : Nat)
    (hlk : alLookup key (pathMap st r) = some i) :
    RegWF (mono_image_open_full canon st f ro p fr).2 ∧
    alLookup key (pathMap (mono_image_open_full canon st f ro p fr).2 r) = some i := by
  rcases open_spec canon st f ro p fr with ⟨i2, hl, heq⟩ | ⟨hl, hp, heq⟩ |
    ⟨g, an, hl, hp, heq⟩
  · rw [heq]
    exact ⟨wf_addref st i2 hwf, by rw [addref_path]; exact hlk⟩
  · rw [heq]
    obtain ⟨hpaths, hinfos⟩ := close_fresh st fr (canon f) "" ro hfr hwf
    constructor
    · refine wf_of_same st _ (fun ro3 k => hpaths ro3 k) ?_ hwf
      intro v hv
      apply hinfos
      obtain ⟨ro3, k3, hl3⟩ := hv
      intro hvfr
      exact wf_no_dead st hwf fr hfr ro3 k3 (hvfr ▸ hl3)
    · rw [hpaths]
      exact hlk
  · rw [heq]
    refine ⟨wf_registerPost st fr (canon f) g an ro hwf hfr hl, ?_⟩
    rw [registerPost_lookup]
    rw [if_neg (by
      rintro ⟨hro2, hkey⟩
      rw [hro2, hkey, hl] at hlk
      cases hlk)]
    rw [if_neg (by
      rintro ⟨hro2, _, hnone, _⟩
      rw [hro2, hnone] at hlk
      cases hlk)]
    exact hlk

theorem open_establish (canon : String → String) (st : Registry) (f : String) (ro : Bool)
    (p : Option (String × Option String)) (fr : Nat) (hwf : RegWF st)
    (hfr : getImg st fr = none) (res : Nat)
    (hres : (mono_image_open_full canon st f ro p fr).1 = some res) :
    RegWF (mono_image_open_full canon st f ro p fr).2 ∧
    alLookup (canon f) (pathMap (mono_image_open_full canon st f ro p fr).2 ro) =
      some res := by
  rcases open_spec canon st f ro p fr with ⟨i2, hl, heq⟩ | ⟨hl, hp, heq⟩ |
    ⟨g, an, hl, hp, heq⟩
  · rw [heq] at hres ⊢
    have h2 : i2 = res := Option.some.inj hres
    subst h2
    exact ⟨wf_addref st i2 hwf, by rw [addref_path]; exact hl⟩
  · rw [heq] at hres
    cases hres
  · rw [heq] at hres ⊢
    have h2 : fr = res := Option.some.inj hres
    refine ⟨wf_registerPost st fr (canon f) g an ro hwf hfr hl, ?_⟩
    rw [registerPost_lookup, if_pos ⟨rfl, rfl⟩, h2]

theorem step_preserve (canon : String → String) (st2 : Registry) (key : String) (r : Bool)
    (i : Nat) (op : RegOp) (hwf : RegWF st2)
    (hlk : alLookup key (pathMap st2 r) = some i) (hok : OpOk st2 i op) :
    RegWF (applyOp canon st2 op) ∧
    alLookup key (pathMap (applyOp canon st2 op) r) = some i := by
  cases op with
  | opn f2 ro2 p2 fr2 => exact open_wf_lk canon st2 f2 ro2 p2 fr2 hwf hok key r i hlk
  | close j => exact ⟨wf_close st2 j hwf, lk_close st2 i j key r hwf hlk hok⟩
  | addref j =>
    refine ⟨wf_addref st2 j hwf, ?_⟩
    show alLookup key (pathMap (mono_image_addref st2 j) r) = some i
    rw [addref_path]
    exact hlk

theorem trace_preserve (canon : String → String) (key : String) (r : Bool) (i : Nat) :
    ∀ (ops : List RegOp) (st2 : Registry), RegWF st2 →
      alLookup key (pathMap st2 r) = some i → OpsOk canon st2 i ops →
      alLookup key (pathMap (applyOps canon st2 ops) r) = some i := by
  intro ops
  induction ops with
  | nil =>
    intro st2 hwf hlk hops
    exact hlk
  | cons op rest ih =>
    intro st2 hwf hlk hops
    have hstep := step_preserve canon st2 key r i op hwf hlk hops.1
    rw [show applyOps canon st2 (op :: rest) = applyOps canon (applyOp canon st2 op) rest
      from rfl]
    exact ih (applyOp canon st2 op) hstep.1 hstep.2 hops.2

theorem wf_init : RegWF regInit := by
  intro ro k j h
  rw [show pathMap regInit ro = [] from by cases ro <;> rfl] at h
  cases h

/-- Claim C4 (corrected): the key the registry indexes an opened image under
is the canonicalized path, so the lookup that keeps returning the image is
`loaded (canon path, r)`, not `loaded (path, r)` (see the counterexample for
a non-identity canonicalization).  Amended statement: for every image `res`
returned by a successful `open (path, r)` from a well-formed registry,
`loaded (canon path, r) = res`, and it stays `res` across any sequence of
further opens (at fresh addresses), addrefs, and closes in which no close
drops `res`'s last reference. -/
theorem C4_open_loaded (canon : String → String) (st : Registry) (fname : String)
    (r : Bool) (parse : Option (String × Option String)) (fresh res : Nat)
    (ops : List RegOp) (hwf : RegWF st) (hfresh : getImg st fresh = none)
    (hres : (mono_image_open_full canon st fname r parse fresh).1 = some res)
    (hops : OpsOk canon (mono_image_open_full canon st fname r parse fresh).2 res ops) :
    mono_image_loaded_full
      (applyOps canon (mono_image_open_full canon st fname r parse fresh).2 ops)
      (canon fname) r = some res := by
  obtain ⟨hwf2, hlk2⟩ :=
    open_establish canon st fname r parse fresh hwf hfresh res hres
  exact trace_preserve canon (canon fname) r res ops
    (mono_image_open_full canon st fname r parse fresh).2 hwf2 hlk2 hops

theorem C4_open_loaded_witness :
    mono_image_loaded_full
      (applyOps canonIdent
        (mono_image_open_full canonIdent regInit "a" false (some ("g", none)) 1).2
        [RegOp.addref 1, RegOp.close 1, RegOp.opn "b" false (some ("h", none)) 2])
      (canonIdent "a") false = some 1 := by
  refine C4_open_loaded canonIdent regInit "a" false (some ("g", none)) 1 1
    [RegOp.addref 1, RegOp.close 1, RegOp.opn "b" false (some ("h", none)) 2]
    wf_init (by decide) (by decide) ?_
  refine ⟨trivial, Or.inr (by decide), ?_, trivial⟩
  show getImg _ 2 = none
  decide

/-- Claim C4 counterexample: with a canonicalization that maps path "x" to
"y" (path normalization or symlink resolution changed the string), a
successful `open ("x", regular)` registers the image under "y", and a
lookup `loaded ("x", regular)` with the same path string returns NULL, not
the opened image. -/
theorem C4_counterexample :
    (mono_image_open_full (fun _ => "y") regInit "x" false (some ("g", none)) 1).1 =
      some 1 ∧
    mono_image_loaded_full
      (mono_image_open_full (fun _ => "y") regInit "x" false (some ("g", none)) 1).2
      "x" false = none := by
  refine ⟨by decide, by decide⟩
